import Mathlib

/-!
Verification of the coordination layer of the Assistance-for-the-Visually-Impaired
backend: request fingerprinting, cache-aside storage with TTLs, a distributed
lock, a fixed-window rate limiter, an idempotency ledger, the OCR request
orchestration endpoint, and the async job state machine.

The shallow embedding models the shared key-value store (Redis) as a function
from keys to optional entries, each entry carrying a value (string or hash of
string fields) and an optional absolute expiry time.  Time is an explicit
natural-number parameter `now` (seconds); a key is live when it has no expiry
or `now` is strictly before it.  Modelling conventions, each noted at the
definition it concerns:
  * the SHA-256 hex digest is modelled as an injective function of its input
    (collision resistance is the only property the source relies on);
  * floating-point confidences, thresholds and temperatures are modelled by
    their decimal string rendering (the source only formats them into keys and
    stores them as Redis strings; `float(str(x))` round-trips);
  * JSON serialisation of opaque payloads is modelled as the identity on an
    opaque string;
  * `datetime.utcnow().isoformat()` timestamps are modelled as `toString now`;
  * `uuid.uuid4()` job ids are modelled as an explicit input parameter.
-/

/-- A Redis value: either a plain string or a hash of string fields. -/
inductive RVal where
  | str (s : String)
  | hash (fields : List (String × String))
deriving DecidableEq, Repr

/-- A stored entry: a value plus an optional absolute expiry time (seconds).
`none` means the key has no expiry (`PERSIST` semantics). -/
structure Entry where
  val : RVal
  expiry : Option Nat
deriving DecidableEq, Repr

/-- The shared key-value store, keyed by strings. -/
def Store := String → Option Entry

/-- The empty store. -/
def emptyStore : Store := fun _ => none

/-- Whether an entry is live at time `now`: no expiry, or `now` strictly
before the expiry instant (Redis removes a key once its TTL has elapsed). -/
def entryLive (now : Nat) (e : Entry) : Bool :=
  match e.expiry with
  | none => true
  | some t => now < t

/-- Look up a key, treating an expired entry as absent. -/
def Store.look (s : Store) (now : Nat) (k : String) : Option Entry :=
  match s k with
  | some e => if entryLive now e then some e else none
  | none => none

/-- Redis `GET`: the string value of a live key, `none` otherwise. -/
def redisGet (s : Store) (now : Nat) (k : String) : Option String :=
  match s.look now k with
  | some e =>
      match e.val with
      | .str v => some v
      | .hash _ => none
  | none => none

/-- Redis `SET key value EX ttl`: store a string with expiry `now + ttl`. -/
def redisSetEx (s : Store) (now : Nat) (k v : String) (ttl : Nat) : Store :=
  fun x => if x = k then some ⟨.str v, some (now + ttl)⟩ else s x

/-- Redis `SET key value EX ttl NX`: atomic set-if-absent.  Returns whether
the set happened together with the resulting store. -/
def redisSetNxEx (s : Store) (now : Nat) (k v : String) (ttl : Nat) : Bool × Store :=
  match s.look now k with
  | some _ => (false, s)
  | none => (true, redisSetEx s now k v ttl)

/-- Redis `DEL`. -/
def redisDel (s : Store) (k : String) : Store :=
  fun x => if x = k then none else s x

/-- First-match field lookup in a hash field list. -/
def lookupField (fs : List (String × String)) (f : String) : Option String :=
  match fs.find? (fun p => p.1 = f) with
  | some p => some p.2
  | none => none

/-- Apply a list of field updates to a hash.  Updates are prepended in order,
so under first-match lookup a later update shadows an earlier one and both
shadow the original fields — Python dict-merge semantics for `HSET mapping`. -/
def setFields (fs upd : List (String × String)) : List (String × String) :=
  upd.foldl (fun acc p => p :: acc) fs

/-- Redis `HGETALL`: the field list of a live hash key, `[]` otherwise. -/
def redisHgetall (s : Store) (now : Nat) (k : String) : List (String × String) :=
  match s.look now k with
  | some e =>
      match e.val with
      | .hash fs => fs
      | .str _ => []
  | none => []

/-- Redis `HSET key mapping`: merge fields into an existing live hash
(preserving its expiry), or create a fresh hash with no expiry. -/
def redisHset (s : Store) (now : Nat) (k : String) (upd : List (String × String)) : Store :=
  match s.look now k with
  | some e =>
      match e.val with
      | .hash fs => fun x => if x = k then some ⟨.hash (setFields fs upd), e.expiry⟩ else s x
      | .str _ => fun x => if x = k then some ⟨.hash (setFields [] upd), none⟩ else s x
  | none => fun x => if x = k then some ⟨.hash (setFields [] upd), none⟩ else s x

/-- Redis `EXPIRE`: set the expiry of a live key to `now + ttl`; no-op on a
missing or expired key. -/
def redisExpire (s : Store) (now : Nat) (k : String) (ttl : Nat) : Store :=
  match s.look now k with
  | some e => fun x => if x = k then some ⟨e.val, some (now + ttl)⟩ else s x
  | none => s

/-- Redis `TTL`: remaining seconds, `-1` for a live key without expiry,
`-2` for a missing or expired key. -/
def redisTtl (s : Store) (now : Nat) (k : String) : Int :=
  match s.look now k with
  | some e =>
      match e.expiry with
      | none => -1
      | some t => (t : Int) - (now : Int)
  | none => -2

/-- Structural decimal-digit accumulator (used instead of `String.toNat?`,
whose byte-position recursion does not reduce definitionally). -/
def digitsToNat? : List Char → Nat → Option Nat
  | [], acc => some acc
  | c :: cs, acc =>
      if c.isDigit then digitsToNat? cs (acc * 10 + (c.toNat - 48)) else none

/-- Parse an optionally-signed decimal integer, as Redis `INCR` and Python
`int()` do on the canonical integer strings this system stores. -/
def strToInt? (s : String) : Option Int :=
  match s.data with
  | [] => none
  | '-' :: rest => (digitsToNat? rest 0).map (fun n => -(n : Int))
  | l => (digitsToNat? l 0).map (fun n => (n : Int))

/-- Redis `INCR`: increment the integer value of a live string key (keeping
its expiry), or create it as `1` with no expiry.  Returns the post-increment
count.  The source only applies `INCR` to keys it itself created as integer
strings, so the parse default is never reached on reachable stores. -/
def redisIncr (s : Store) (now : Nat) (k : String) : Int × Store :=
  match s.look now k with
  | some e =>
      match e.val with
      | .str v =>
          let n := (strToInt? v).getD 0 + 1
          (n, fun x => if x = k then some ⟨.str (toString n), e.expiry⟩ else s x)
      | .hash _ =>
          (1, fun x => if x = k then some ⟨.str "1", none⟩ else s x)
  | none => (1, fun x => if x = k then some ⟨.str "1", none⟩ else s x)

/-! ## Configuration (`app/core/config.py`, reference values) -/

def cache_ttl_ocr_seconds : Nat := 1800

def cache_ttl_object_detection_seconds : Nat := 1800

def cache_ttl_scene_caption_seconds : Nat := 1800

def cache_ttl_multimodal_llm_seconds : Nat := 3600

def lock_ttl_seconds : Nat := 30

def rate_limit_window_seconds : Nat := 60

def rate_limit_requests : Nat := 30

/-! ## Cache-aside engine (`app/services/cache.py`) -/

/-- `hashlib.sha256(s).hexdigest()`, modelled as an injective function of the
input string: collision resistance of the digest is the only property the
cache-key construction relies on, so the model takes it as exact. -/
def sha256hex (s : String) : String := s

/-- `ocr_cache_key`: derived from the image URL only. -/
def ocr_cache_key (image_url : String) : String :=
  "cache:ocr:" ++ sha256hex image_url

/-- `ocr_lock_key`. -/
def ocr_lock_key (image_url : String) : String :=
  "lock:ocr:" ++ sha256hex image_url

/-- The payload returned by `get_cached_ocr` on a hit. -/
structure OCRCached where
  text : String
  confidence : String
  ttl : Int
deriving DecidableEq, Repr

/-- `get_cached_ocr`: `HGETALL` the cache key; on a non-empty hash return the
`text` and `confidence` fields (with the source's defaults) and the remaining
TTL. -/
def get_cached_ocr (s : Store) (now : Nat) (image_url : String) : Option OCRCached :=
  let key := ocr_cache_key image_url
  let data := redisHgetall s now key
  if data.isEmpty then none
  else some { text := (lookupField data "text").getD ""
            , confidence := (lookupField data "confidence").getD "0"
            , ttl := redisTtl s now key }

/-- `set_cached_ocr`: `HSET` the two fields, then `EXPIRE` to the configured
OCR TTL; returns the TTL assigned. -/
def set_cached_ocr (s : Store) (now : Nat) (image_url text confidence : String) : Nat × Store :=
  let key := ocr_cache_key image_url
  let ttl := cache_ttl_ocr_seconds
  let s1 := redisHset s now key [("text", text), ("confidence", confidence)]
  (ttl, redisExpire s1 now key ttl)

/-- `object_detection_cache_key`: hashes `"{image_url}:{confidence_threshold}"`.
The float threshold is modelled by its decimal string rendering. -/
def object_detection_cache_key (image_url confidence_threshold : String) : String :=
  "cache:obj_det:" ++ sha256hex (image_url ++ ":" ++ confidence_threshold)

/-- The payload returned by `get_cached_object_detection` on a hit.  The
JSON-serialised object list is modelled as an opaque string. -/
structure ObjDetCached where
  objects : String
  ttl : Int
deriving DecidableEq, Repr

/-- `get_cached_object_detection`: plain `GET` of a JSON string (JSON encode
and decode modelled as the identity on the opaque `objects` string). -/
def get_cached_object_detection (s : Store) (now : Nat) (image_url confidence_threshold : String) :
    Option ObjDetCached :=
  let key := object_detection_cache_key image_url confidence_threshold
  match redisGet s now key with
  | some data => some { objects := data, ttl := redisTtl s now key }
  | none => none

/-- `set_cached_object_detection`: `SET ... EX ttl` of the serialised objects. -/
def set_cached_object_detection (s : Store) (now : Nat)
    (image_url confidence_threshold objects : String) : Nat × Store :=
  let key := object_detection_cache_key image_url confidence_threshold
  let ttl := cache_ttl_object_detection_seconds
  (ttl, redisSetEx s now key objects ttl)

/-- `scene_caption_cache_key`: hashes `"{image_url}:{max_length}"`. -/
def scene_caption_cache_key (image_url max_length : String) : String :=
  "cache:scene_cap:" ++ sha256hex (image_url ++ ":" ++ max_length)

/-- The payload returned by `get_cached_scene_caption` on a hit. -/
structure SceneCapCached where
  caption : String
  confidence : String
  ttl : Int
deriving DecidableEq, Repr

/-- `get_cached_scene_caption`. -/
def get_cached_scene_caption (s : Store) (now : Nat) (image_url max_length : String) :
    Option SceneCapCached :=
  let key := scene_caption_cache_key image_url max_length
  let data := redisHgetall s now key
  if data.isEmpty then none
  else some { caption := (lookupField data "caption").getD ""
            , confidence := (lookupField data "confidence").getD "0"
            , ttl := redisTtl s now key }

/-- `set_cached_scene_caption`. -/
def set_cached_scene_caption (s : Store) (now : Nat)
    (image_url max_length caption confidence : String) : Nat × Store :=
  let key := scene_caption_cache_key image_url max_length
  let ttl := cache_ttl_scene_caption_seconds
  let s1 := redisHset s now key [("caption", caption), ("confidence", confidence)]
  (ttl, redisExpire s1 now key ttl)

/-- `multimodal_llm_cache_key`: hashes
`"{image_url}:{prompt}:{max_tokens}:{temperature}"`. -/
def multimodal_llm_cache_key (image_url prompt max_tokens temperature : String) : String :=
  "cache:mm_llm:" ++ sha256hex (image_url ++ ":" ++ prompt ++ ":" ++ max_tokens ++ ":" ++ temperature)

/-- The payload returned by `get_cached_multimodal_llm` on a hit;
`confidence` is optional, as in the source. -/
structure MMLLMCached where
  response : String
  confidence : Option String
  ttl : Int
deriving DecidableEq, Repr

/-- `get_cached_multimodal_llm`: the confidence field is returned only when
present and truthy (a missing or empty string maps to `None`). -/
def get_cached_multimodal_llm (s : Store) (now : Nat)
    (image_url prompt max_tokens temperature : String) : Option MMLLMCached :=
  let key := multimodal_llm_cache_key image_url prompt max_tokens temperature
  let data := redisHgetall s now key
  if data.isEmpty then none
  else some { response := (lookupField data "response").getD ""
            , confidence :=
                match lookupField data "confidence" with
                | some c => if c = "" then none else some c
                | none => none
            , ttl := redisTtl s now key }

/-- `set_cached_multimodal_llm`: writes the `confidence` field only when one
is supplied. -/
def set_cached_multimodal_llm (s : Store) (now : Nat)
    (image_url prompt max_tokens temperature response : String)
    (confidence : Option String) : Nat × Store :=
  let key := multimodal_llm_cache_key image_url prompt max_tokens temperature
  let ttl := cache_ttl_multimodal_llm_seconds
  let mapping := match confidence with
                 | some c => [("response", response), ("confidence", c)]
                 | none => [("response", response)]
  let s1 := redisHset s now key mapping
  (ttl, redisExpire s1 now key ttl)

/-! ## Distributed lock, rate limiter, idempotency ledger (`app/services/cache.py`) -/

/-- `acquire_lock`: atomic `SET key "1" EX ttl NX`. -/
def acquire_lock (s : Store) (now : Nat) (key : String) (ttl : Nat) : Bool × Store :=
  redisSetNxEx s now key "1" ttl

/-- `release_lock`: best-effort `DEL` (store errors are swallowed in the
source; the store model cannot fail, so this is a plain delete). -/
def release_lock (s : Store) (key : String) : Store :=
  redisDel s key

/-- `rate_limit`: pipelined `INCR` then `EXPIRE` of the subject's fixed-window
counter; admits the request iff the post-increment count is within the
configured limit. -/
def rate_limit (s : Store) (now : Nat) (user_id : String) : Bool × Store :=
  let key := "rate:user:" ++ user_id
  let r := redisIncr s now key
  let s2 := redisExpire r.2 now key rate_limit_window_seconds
  (decide (r.1 ≤ (rate_limit_requests : Int)), s2)

/-- `idempotency_check`: `GET idem:{token}`. -/
def idempotency_check (s : Store) (now : Nat) (idem_key : String) : Option String :=
  redisGet s now ("idem:" ++ idem_key)

/-- `set_idempotency`: `SET idem:{token} value EX ttl`. -/
def set_idempotency (s : Store) (now : Nat) (idem_key value : String) (ttl : Nat) : Store :=
  redisSetEx s now ("idem:" ++ idem_key) value ttl

/-! ## `with_lock` and the OCR orchestration endpoint (`app/api/v1/ocr.py`) -/

/-- A typed inference failure: timeout or computation error
(`asyncio.TimeoutError` vs. any other exception from the inference call). -/
inductive InferErr where
  | timeout
  | failure (msg : String)
deriving DecidableEq, Repr

/-- The observable outcome of `with_lock`: the value returned (or exception
propagated), the resulting store, and whether the protected operation ran.
The `ran` flag is instrumentation the Python function does not return; it
records whether the `try` body executed. -/
structure LockRunResult (α : Type) where
  res : Except InferErr (Option α)
  store : Store
  ran : Bool

/-- `with_lock`: acquire the TTL-bounded lock; if acquired, run the protected
operation and release the lock in a `finally` (so also when it raises); if
not acquired, sleep a fixed backoff and return `None`.  The Python coroutine
result lives in `Option α` with `none` playing the role of Python `None`, so
a lock-unavailable return and an operation returning `None` coincide.  The
protected operation is a pure value because the inference services do not
touch the store; the `backoff` parameter is the (arbitrary) interference of
other writers with the store during the sleep. -/
def with_lock {α : Type} (s : Store) (now : Nat) (key : String) (ttl : Nat)
    (coro : Except InferErr (Option α)) (backoff : Store → Store) : LockRunResult α :=
  let a := acquire_lock s now key ttl
  if a.1 then
    { res := coro, store := release_lock a.2 key, ran := true }
  else
    { res := Except.ok none, store := backoff s, ran := false }

/-- The OCR response model (`app/models/ocr.py`), confidence rendered as its
decimal string. -/
structure OCRResponse where
  text : String
  confidence : String
  request_id : String
  cache_hit : Bool
  ttl_seconds : Int
deriving DecidableEq, Repr

/-- Errors the endpoint surfaces as HTTP failures. -/
inductive ApiError where
  | rateLimited
  | unavailable
  | inferFailed (e : InferErr)
deriving DecidableEq, Repr

/-- The observable outcome of one endpoint invocation: the HTTP-level result,
the final store, and whether `infer()` was executed. -/
structure EndpointResult where
  resp : Except ApiError OCRResponse
  store : Store
  inferRan : Bool

/-- The replay guard of `run_ocr_endpoint`: Python's
`if idem_key and (prior := await cache.idempotency_check(redis, idem_key))`
takes the replay branch only when both the header token and the stored
record are truthy strings — `None` and `""` are falsy — so a present but
empty record (or an empty token) falls through to the normal path.  Returns
the stored payload when the branch fires, `none` otherwise. -/
def replay_guard (s : Store) (now : Nat) (idem_key : Option String) : Option String :=
  match idem_key with
  | some k =>
      if k = "" then none
      else
        match idempotency_check s now k with
        | some prior => if prior = "" then none else some prior
        | none => none
  | none => none

/-- `run_ocr_endpoint` (URL validation, which returns the URL unchanged when
it is absolute, is upstream of this model): truthiness-guarded idempotency
replay, rate limit, cache read, `with_lock`-guarded inference, cache write,
and an idempotency write guarded by `if idem_key:` (a non-empty token).
`infer` is the opaque `ocr.run_ocr(url, locale)` operation, returning a
`(text, confidence)` pair or raising a typed failure. -/
def run_ocr_endpoint (s : Store) (now : Nat) (request_id subject : String)
    (idem_key : Option String) (image_url : String) (locale : Option String)
    (infer : String → Option String → Except InferErr (String × String))
    (backoff : Store → Store) : EndpointResult :=
  match replay_guard s now idem_key with
  | some prior =>
      { resp := .ok { text := prior, confidence := "1.0", request_id := request_id
                    , cache_hit := true, ttl_seconds := (cache_ttl_ocr_seconds : Int) }
      , store := s, inferRan := false }
  | none =>
    let r := rate_limit s now subject
    if r.1 = false then
      { resp := .error .rateLimited, store := r.2, inferRan := false }
    else
      match get_cached_ocr r.2 now image_url with
      | some cached =>
          { resp := .ok { text := cached.text, confidence := cached.confidence
                        , request_id := request_id, cache_hit := true
                        , ttl_seconds := cached.ttl }
          , store := r.2, inferRan := false }
      | none =>
          let lock_key := ocr_lock_key image_url
          let w := with_lock r.2 now lock_key lock_ttl_seconds
                     (Except.map some (infer image_url locale)) backoff
          match w.res with
          | .error e => { resp := .error (.inferFailed e), store := w.store, inferRan := w.ran }
          | .ok none =>
              match get_cached_ocr w.store now image_url with
              | some cached =>
                  { resp := .ok { text := cached.text, confidence := cached.confidence
                                , request_id := request_id, cache_hit := true
                                , ttl_seconds := cached.ttl }
                  , store := w.store, inferRan := w.ran }
              | none => { resp := .error .unavailable, store := w.store, inferRan := w.ran }
          | .ok (some tc) =>
              let sc := set_cached_ocr w.store now image_url tc.1 tc.2
              let s4 := match idem_key with
                        | some k =>
                            if k = "" then sc.2
                            else set_idempotency sc.2 now k tc.1 sc.1
                        | none => sc.2
              { resp := .ok { text := tc.1, confidence := tc.2, request_id := request_id
                            , cache_hit := false, ttl_seconds := (sc.1 : Int) }
              , store := s4, inferRan := w.ran }

instance {ε α : Type} [DecidableEq ε] [DecidableEq α] : DecidableEq (Except ε α)
  | .ok a, .ok b =>
      if h : a = b then .isTrue (by rw [h])
      else .isFalse (by intro he; cases he; exact h rfl)
  | .ok _, .error _ => .isFalse (by intro h; cases h)
  | .error _, .ok _ => .isFalse (by intro h; cases h)
  | .error a, .error b =>
      if h : a = b then .isTrue (by rw [h])
      else .isFalse (by intro he; cases he; exact h rfl)

/-- A placeholder inference operation mirroring `ocr.run_ocr`, which returns
`("placeholder text", 0.42)` regardless of URL and locale. -/
def placeholderInfer : String → Option String → Except InferErr (String × String) :=
  fun _ _ => .ok ("placeholder text", "0.42")

/-- `JobStatus` (`app/models/async_job.py`). -/
inductive JobStatus where
  | pending
  | processing
  | completed
  | failed
  | expired
deriving DecidableEq, Repr

/-- The string value of each status, as in the Python `str`-enum. -/
def JobStatus.value : JobStatus → String
  | .pending => "pending"
  | .processing => "processing"
  | .completed => "completed"
  | .failed => "failed"
  | .expired => "expired"

/-- `job_key`. -/
def job_key (job_id : String) : String := "job:" ++ job_id

/-- `job_status_key`. -/
def job_status_key (job_id : String) : String := "job:status:" ++ job_id

/-- `create_job`: write the initial PENDING job hash with
TTL = estimated duration + 300 s, and mirror the status into the quick-lookup
status key with the same TTL.  The `uuid4` job id is an input parameter;
`json.dumps(parameters)` is an opaque string; the creation timestamp is
`toString now`. -/
def create_job (s : Store) (now : Nat) (job_id job_type image_url parameters : String)
    (estimated_duration_seconds : Nat) : Store :=
  let job_state : List (String × String) :=
    [ ("job_id", job_id), ("job_type", job_type), ("image_url", image_url)
    , ("parameters", parameters), ("status", JobStatus.pending.value)
    , ("created_at", toString now)
    , ("estimated_completion_seconds", toString estimated_duration_seconds)
    , ("progress_percent", "0") ]
  let ttl := estimated_duration_seconds + 300
  let key := job_key job_id
  let s1 := redisHset s now key job_state
  let s2 := redisExpire s1 now key ttl
  redisSetEx s2 now (job_status_key job_id) JobStatus.pending.value ttl

/-- The view `get_job_status` returns (the parsed job hash). -/
structure JobView where
  job_id : String
  job_type : Option String
  image_url : Option String
  parameters : String
  status : Option String
  created_at : Option String
  completed_at : Option String
  result : Option String
  error : Option String
  progress_percent : Int
  estimated_completion_seconds : Int
deriving DecidableEq, Repr

/-- `get_job_status`: `HGETALL` of the job hash; `none` when the key is
missing or expired (indistinguishable from never-existed).  JSON decoding of
`parameters` and `result` is the identity on the stored opaque strings. -/
def get_job_status (s : Store) (now : Nat) (job_id : String) : Option JobView :=
  let data := redisHgetall s now (job_key job_id)
  if data.isEmpty then none
  else some
    { job_id := (lookupField data "job_id").getD job_id
    , job_type := lookupField data "job_type"
    , image_url := lookupField data "image_url"
    , parameters := (lookupField data "parameters").getD ""
    , status := lookupField data "status"
    , created_at := lookupField data "created_at"
    , completed_at := lookupField data "completed_at"
    , result := lookupField data "result"
    , error := lookupField data "error"
    , progress_percent := (strToInt? ((lookupField data "progress_percent").getD "0")).getD 0
    , estimated_completion_seconds :=
        (strToInt? ((lookupField data "estimated_completion_seconds").getD "30")).getD 30 }

/-- `update_job_status`: merge the given status (and optional progress,
result, error) into the job hash — with no check of the current status — and
stamp `completed_at` when a result or error is supplied.  The quick-lookup
status key is rewritten with a fixed 3600 s TTL; the job hash keeps whatever
expiry it had. -/
def update_job_status (s : Store) (now : Nat) (job_id : String) (status : JobStatus)
    (progress_percent : Option Int) (result : Option String) (error : Option String) : Store :=
  let u0 : List (String × String) := [("status", status.value)]
  let u1 := match progress_percent with
            | some p => u0 ++ [("progress_percent", toString p)]
            | none => u0
  let u2 := match result with
            | some r => u1 ++ [("result", r), ("completed_at", toString now)]
            | none => u1
  let u3 := match error with
            | some e => u2 ++ [("error", e), ("completed_at", toString now)]
            | none => u2
  let s1 := redisHset s now (job_key job_id) u3
  redisSetEx s1 now (job_status_key job_id) status.value 3600

/-- One `update_job_status` call as issued by the dispatcher. -/
structure JobUpdate where
  status : JobStatus
  progress : Option Int
  result : Option String
  error : Option String
deriving DecidableEq, Repr

/-- The successful update sequence of `process_job_background`: three
PROCESSING progress updates then COMPLETED with the result. -/
def dispatcherFullRun (result : String) : List JobUpdate :=
  [ ⟨.processing, some 10, none, none⟩
  , ⟨.processing, some 50, none, none⟩
  , ⟨.processing, some 90, none, none⟩
  , ⟨.completed, some 100, some result, none⟩ ]

/-- The update sequences `process_job_background` can issue: either the full
successful run, or — when the `try` body raises after `k ≤ 3` completed
updates — the first `k` updates followed by a single FAILED update carrying
the error message (the `except` branch). -/
def process_job_background_updates (failAt : Option (Fin 4)) (result errMsg : String) :
    List JobUpdate :=
  match failAt with
  | none => dispatcherFullRun result
  | some k => (dispatcherFullRun result).take k ++ [⟨.failed, none, none, some errMsg⟩]

/-- Apply a list of dispatcher updates to the store. -/
def applyJobUpdates (s : Store) (now : Nat) (job_id : String) : List JobUpdate → Store
  | [] => s
  | u :: rest =>
      applyJobUpdates (update_job_status s now job_id u.status u.progress u.result u.error)
        now job_id rest

/-- The phase of one caller: before the acquire attempt, running `infer()`
with the lock held, between `infer()` and the release (the `finally`),
finished, or denied (took the backoff path, which never touches the lock). -/
inductive LockPhase where
  | start
  | inferring
  | releasing
  | finished
  | denied
deriving DecidableEq, Repr

/-- Joint state of the shared store and the two callers. -/
structure TwoProc where
  store : Store
  p1 : LockPhase
  p2 : LockPhase

/-- One interleaving step: either caller performs its next atomic action
(`acquire_lock` succeeding or failing, finishing `infer()`, or
`release_lock`), exactly as `with_lock` issues them. -/
inductive LockStep (now : Nat) (key : String) (ttl : Nat) : TwoProc → TwoProc → Prop where
  | acq1 (st : TwoProc) (h : st.p1 = .start)
      (ha : (acquire_lock st.store now key ttl).1 = true) :
      LockStep now key ttl st ⟨(acquire_lock st.store now key ttl).2, .inferring, st.p2⟩
  | deny1 (st : TwoProc) (h : st.p1 = .start)
      (ha : (acquire_lock st.store now key ttl).1 = false) :
      LockStep now key ttl st ⟨st.store, .denied, st.p2⟩
  | fin1 (st : TwoProc) (h : st.p1 = .inferring) :
      LockStep now key ttl st ⟨st.store, .releasing, st.p2⟩
  | rel1 (st : TwoProc) (h : st.p1 = .releasing) :
      LockStep now key ttl st ⟨release_lock st.store key, .finished, st.p2⟩
  | acq2 (st : TwoProc) (h : st.p2 = .start)
      (ha : (acquire_lock st.store now key ttl).1 = true) :
      LockStep now key ttl st ⟨(acquire_lock st.store now key ttl).2, st.p1, .inferring⟩
  | deny2 (st : TwoProc) (h : st.p2 = .start)
      (ha : (acquire_lock st.store now key ttl).1 = false) :
      LockStep now key ttl st ⟨st.store, st.p1, .denied⟩
  | fin2 (st : TwoProc) (h : st.p2 = .inferring) :
      LockStep now key ttl st ⟨st.store, st.p1, .releasing⟩
  | rel2 (st : TwoProc) (h : st.p2 = .releasing) :
      LockStep now key ttl st ⟨release_lock st.store key, st.p1, .finished⟩

/-- Whether a caller in this phase holds the lock. -/
def holdsLock : LockPhase → Bool
  | .inferring => true
  | .releasing => true
  | _ => false

/-- Lock-protocol invariant: a holder implies the lock key is live, and there
is never more than one holder. -/
def lockInv (now : Nat) (key : String) (st : TwoProc) : Prop :=
  ((holdsLock st.p1 = true ∨ holdsLock st.p2 = true) →
      (st.store.look now key).isSome = true) ∧
  ¬(holdsLock st.p1 = true ∧ holdsLock st.p2 = true)

/-! ## Basic store lemmas -/

/-- A store whose only key is a held OCR lock, for concrete scenarios. -/
def lockHeldStore : Store :=
  redisSetEx emptyStore 0 (ocr_lock_key "https://x/a.png") "1" 30

/-- An inference operation that always times out, for concrete scenarios. -/
def timeoutInfer : String → Option String → Except InferErr (String × String) :=
  fun _ _ => .error .timeout

/-- An inference operation whose output depends on the locale parameter, for
the fingerprint counterexample. -/
def localeInfer : String → Option String → Except InferErr (String × String) :=
  fun _ l => .ok (if l = some "en" then "hello" else "bonjour", "0.9")

/-- Iterate `rate_limit` for one subject at a fixed instant, collecting the
admission decisions. -/
def rateCalls (s : Store) (now : Nat) (u : String) : Nat → List Bool × Store
  | 0 => ([], s)
  | n+1 =>
      let prev := rateCalls s now u n
      let r := rate_limit prev.2 now u
      (prev.1 ++ [r.1], r.2)

/-- Rank of a job status along the forward direction of the state machine. -/
def statusRank : JobStatus → Nat
  | .pending => 0
  | .processing => 1
  | .completed => 2
  | .failed => 2
  | .expired => 3

/-- Whether a status is terminal. -/
def isTerminal : JobStatus → Bool
  | .completed => true
  | .failed => true
  | _ => false

/-! ## Theorems -/

/-- Two strings with distinct head characters stay distinct under any
suffixes; used to separate the `cache:`, `lock:`, `rate:`, `idem:` and `job:`
key namespaces. -/
theorem keys_ne_of_head (a b u v : String) (c1 c2 : Char) (t1 t2 : List Char)
    (ha : a.data = c1 :: t1) (hb : b.data = c2 :: t2) (hne : c1 ≠ c2) :
    a ++ u ≠ b ++ v := by
  intro h
  have h2 := congrArg String.data h
  rw [String.data_append, String.data_append, ha, hb] at h2
  simp only [List.cons_append, List.cons.injEq] at h2
  exact hne h2.1

/-- Strings built from prefixes of different lengths over the same suffix are
distinct; separates `job:{id}` from `job:status:{id}`. -/
theorem keys_ne_of_len (a b u v : String) (hlen : a.length ≠ b.length)
    (hsuf : u.length = v.length) : a ++ u ≠ b ++ v := by
  intro h
  have h2 := congrArg String.length h
  rw [String.length_append, String.length_append, hsuf] at h2
  omega

theorem acquire_lock_true_look (s : Store) (now : Nat) (k : String) (ttl : Nat)
    (h : (acquire_lock s now k ttl).1 = true) : s.look now k = none := by
  unfold acquire_lock redisSetNxEx at h
  cases hl : s.look now k <;> simp [hl] at h ⊢

theorem acquire_lock_true_store (s : Store) (now : Nat) (k : String) (ttl : Nat)
    (h : (acquire_lock s now k ttl).1 = true) :
    (acquire_lock s now k ttl).2 = redisSetEx s now k "1" ttl := by
  unfold acquire_lock redisSetNxEx at h ⊢
  cases hl : s.look now k <;> simp [hl] at h ⊢

theorem acquire_lock_false_store (s : Store) (now : Nat) (k : String) (ttl : Nat)
    (h : (acquire_lock s now k ttl).1 = false) :
    (acquire_lock s now k ttl).2 = s := by
  unfold acquire_lock redisSetNxEx at h ⊢
  cases hl : s.look now k <;> simp [hl] at h ⊢

theorem look_setEx_self (s : Store) (now : Nat) (k v : String) (ttl : Nat) (h : 0 < ttl) :
    (redisSetEx s now k v ttl).look now k = some ⟨.str v, some (now + ttl)⟩ := by
  unfold redisSetEx Store.look entryLive
  simp [Nat.lt_add_of_pos_right h]

theorem look_setEx_other (s : Store) (now : Nat) (k v : String) (ttl : Nat) (x : String)
    (hx : x ≠ k) : (redisSetEx s now k v ttl).look now x = s.look now x := by
  unfold redisSetEx Store.look
  simp [hx]

theorem look_del_self (s : Store) (k : String) (now : Nat) :
    (release_lock s k).look now k = none := by
  unfold release_lock redisDel Store.look
  simp

theorem look_del_other (s : Store) (k : String) (now : Nat) (x : String) (hx : x ≠ k) :
    (release_lock s k).look now x = s.look now x := by
  unfold release_lock redisDel Store.look
  simp [hx]

/-! ## Mutual exclusion of the lock protocol -/

theorem lockInv_init (now : Nat) (key : String) (s0 : Store) :
    lockInv now key ⟨s0, .start, .start⟩ := by
  constructor
  · intro h
    rcases h with h | h <;> simp [holdsLock] at h
  · rintro ⟨h, -⟩
    simp [holdsLock] at h

theorem lockInv_step (now : Nat) (key : String) (ttl : Nat) (hpos : 0 < ttl)
    (st st2 : TwoProc) (hstep : LockStep now key ttl st st2)
    (hinv : lockInv now key st) : lockInv now key st2 := by
  obtain ⟨inv1, inv2⟩ := hinv
  cases hstep with
  | acq1 h ha =>
      have hnone := acquire_lock_true_look st.store now key ttl ha
      have hst := acquire_lock_true_store st.store now key ttl ha
      constructor
      · intro _
        show (((acquire_lock st.store now key ttl).2).look now key).isSome = true
        rw [hst, look_setEx_self st.store now key "1" ttl hpos]
        rfl
      · rintro ⟨-, h2⟩
        have h3 := inv1 (Or.inr h2)
        rw [hnone] at h3
        simp at h3
  | deny1 h ha =>
      constructor
      · intro hh
        rcases hh with hh | hh
        · simp [holdsLock] at hh
        · exact inv1 (Or.inr hh)
      · rintro ⟨hh, -⟩
        simp [holdsLock] at hh
  | fin1 h =>
      constructor
      · intro _
        exact inv1 (Or.inl (by rw [h]; rfl))
      · rintro ⟨-, h2⟩
        exact inv2 ⟨by rw [h]; rfl, h2⟩
  | rel1 h =>
      constructor
      · intro hh
        rcases hh with hh | hh
        · simp [holdsLock] at hh
        · exact absurd ⟨by rw [h]; rfl, hh⟩ inv2
      · rintro ⟨hh, -⟩
        simp [holdsLock] at hh
  | acq2 h ha =>
      have hnone := acquire_lock_true_look st.store now key ttl ha
      have hst := acquire_lock_true_store st.store now key ttl ha
      constructor
      · intro _
        show (((acquire_lock st.store now key ttl).2).look now key).isSome = true
        rw [hst, look_setEx_self st.store now key "1" ttl hpos]
        rfl
      · rintro ⟨h2, -⟩
        have h3 := inv1 (Or.inl h2)
        rw [hnone] at h3
        simp at h3
  | deny2 h ha =>
      constructor
      · intro hh
        rcases hh with hh | hh
        · exact inv1 (Or.inl hh)
        · simp [holdsLock] at hh
      · rintro ⟨-, hh⟩
        simp [holdsLock] at hh
  | fin2 h =>
      constructor
      · intro _
        exact inv1 (Or.inr (by rw [h]; rfl))
      · rintro ⟨h2, -⟩
        exact inv2 ⟨h2, by rw [h]; rfl⟩
  | rel2 h =>
      constructor
      · intro hh
        rcases hh with hh | hh
        · exact absurd ⟨hh, by rw [h]; rfl⟩ inv2
        · simp [holdsLock] at hh
      · rintro ⟨-, hh⟩
        simp [holdsLock] at hh

theorem lockInv_reachable (now : Nat) (key : String) (ttl : Nat) (hpos : 0 < ttl)
    (s0 : Store) (st : TwoProc)
    (hr : Relation.ReflTransGen (LockStep now key ttl) ⟨s0, .start, .start⟩ st) :
    lockInv now key st := by
  induction hr with
  | refl => exact lockInv_init now key s0
  | tail _ hstep ih => exact lockInv_step now key ttl hpos _ _ hstep ih

/-! ## Pointwise store-preservation lemmas -/

theorem redisSetEx_app_other (s : Store) (now : Nat) (k v : String) (ttl : Nat)
    (x : String) (hx : x ≠ k) : (redisSetEx s now k v ttl) x = s x := by
  unfold redisSetEx
  simp [hx]

theorem redisIncr_app_other (s : Store) (now : Nat) (k x : String) (hx : x ≠ k) :
    ((redisIncr s now k).2) x = s x := by
  unfold redisIncr
  cases hl : s.look now k with
  | none => simp [hx]
  | some e =>
      obtain ⟨val, exp⟩ := e
      cases val <;> simp [hx]

theorem redisExpire_app_other (s : Store) (now : Nat) (k : String) (ttl : Nat)
    (x : String) (hx : x ≠ k) : (redisExpire s now k ttl) x = s x := by
  unfold redisExpire
  cases hl : s.look now k with
  | none => rfl
  | some e => simp [hx]

theorem redisHset_app_other (s : Store) (now : Nat) (k : String)
    (upd : List (String × String)) (x : String) (hx : x ≠ k) :
    (redisHset s now k upd) x = s x := by
  unfold redisHset
  cases hl : s.look now k with
  | none => simp [hx]
  | some e =>
      obtain ⟨val, exp⟩ := e
      cases val <;> simp [hx]

theorem rate_limit_app_other (s : Store) (now : Nat) (u x : String)
    (hx : x ≠ "rate:user:" ++ u) : ((rate_limit s now u).2) x = s x := by
  unfold rate_limit
  simp only
  rw [redisExpire_app_other _ _ _ _ _ hx, redisIncr_app_other _ _ _ _ hx]

theorem look_congr_app (s1 s2 : Store) (now : Nat) (x : String) (h : s1 x = s2 x) :
    s1.look now x = s2.look now x := by
  unfold Store.look
  rw [h]

theorem rate_limit_look_other (s : Store) (now : Nat) (u x : String)
    (hx : x ≠ "rate:user:" ++ u) :
    ((rate_limit s now u).2).look now x = s.look now x :=
  look_congr_app _ _ _ _ (rate_limit_app_other s now u x hx)

theorem redisGet_setEx_self (s : Store) (now : Nat) (k v : String) (ttl : Nat)
    (h : 0 < ttl) : redisGet (redisSetEx s now k v ttl) now k = some v := by
  unfold redisGet
  rw [look_setEx_self s now k v ttl h]

/-! ## Branch-reduction lemmas for the OCR endpoint -/

theorem replay_guard_none_of_bind (s : Store) (now : Nat) (idem_key : Option String)
    (hb : idem_key.bind (fun k => idempotency_check s now k) = none) :
    replay_guard s now idem_key = none := by
  unfold replay_guard
  cases idem_key with
  | none => rfl
  | some k =>
      simp only [Option.some_bind] at hb
      simp [hb]

theorem run_ocr_endpoint_replay (s : Store) (now : Nat) (rid subject k prior image_url : String)
    (locale : Option String)
    (infer : String → Option String → Except InferErr (String × String))
    (backoff : Store → Store)
    (hk : k ≠ "") (hp : prior ≠ "")
    (hit : idempotency_check s now k = some prior) :
    run_ocr_endpoint s now rid subject (some k) image_url locale infer backoff =
      ⟨.ok ⟨prior, "1.0", rid, true, (cache_ttl_ocr_seconds : Int)⟩, s, false⟩ := by
  unfold run_ocr_endpoint replay_guard
  simp [hit, hk, hp]

theorem run_ocr_endpoint_rate_limited (s : Store) (now : Nat) (rid subject image_url : String)
    (idem_key : Option String) (locale : Option String)
    (infer : String → Option String → Except InferErr (String × String))
    (backoff : Store → Store)
    (hb : idem_key.bind (fun k => idempotency_check s now k) = none)
    (hr : (rate_limit s now subject).1 = false) :
    run_ocr_endpoint s now rid subject idem_key image_url locale infer backoff =
      ⟨.error .rateLimited, (rate_limit s now subject).2, false⟩ := by
  unfold run_ocr_endpoint
  rw [replay_guard_none_of_bind s now idem_key hb]
  simp [hr]

theorem run_ocr_endpoint_cache_hit (s : Store) (now : Nat) (rid subject image_url : String)
    (idem_key : Option String) (locale : Option String)
    (infer : String → Option String → Except InferErr (String × String))
    (backoff : Store → Store) (cached : OCRCached)
    (hb : idem_key.bind (fun k => idempotency_check s now k) = none)
    (hr : (rate_limit s now subject).1 = true)
    (hc : get_cached_ocr (rate_limit s now subject).2 now image_url = some cached) :
    run_ocr_endpoint s now rid subject idem_key image_url locale infer backoff =
      ⟨.ok ⟨cached.text, cached.confidence, rid, true, cached.ttl⟩,
        (rate_limit s now subject).2, false⟩ := by
  unfold run_ocr_endpoint
  rw [replay_guard_none_of_bind s now idem_key hb]
  simp [hr, hc]

theorem with_lock_not_acquired {α : Type} (s : Store) (now : Nat) (key : String)
    (ttl : Nat) (coro : Except InferErr (Option α)) (backoff : Store → Store) (e : Entry)
    (hl : s.look now key = some e) :
    with_lock s now key ttl coro backoff =
      ⟨Except.ok none, backoff s, false⟩ := by
  unfold with_lock acquire_lock redisSetNxEx
  rw [hl]
  simp

theorem with_lock_acquired {α : Type} (s : Store) (now : Nat) (key : String)
    (ttl : Nat) (coro : Except InferErr (Option α)) (backoff : Store → Store)
    (hl : s.look now key = none) :
    with_lock s now key ttl coro backoff =
      ⟨coro, release_lock (redisSetEx s now key "1" ttl) key, true⟩ := by
  unfold with_lock acquire_lock redisSetNxEx
  rw [hl]
  simp

theorem run_ocr_endpoint_locked (s : Store) (now : Nat) (rid subject image_url : String)
    (idem_key : Option String) (locale : Option String)
    (infer : String → Option String → Except InferErr (String × String))
    (backoff : Store → Store) (e : Entry)
    (hb : idem_key.bind (fun k => idempotency_check s now k) = none)
    (hr : (rate_limit s now subject).1 = true)
    (hc : get_cached_ocr (rate_limit s now subject).2 now image_url = none)
    (hl : ((rate_limit s now subject).2).look now (ocr_lock_key image_url) = some e) :
    run_ocr_endpoint s now rid subject idem_key image_url locale infer backoff =
      (match get_cached_ocr (backoff ((rate_limit s now subject).2)) now image_url with
       | some cached =>
           ⟨.ok ⟨cached.text, cached.confidence, rid, true, cached.ttl⟩,
             backoff ((rate_limit s now subject).2), false⟩
       | none =>
           ⟨.error .unavailable, backoff ((rate_limit s now subject).2), false⟩) := by
  unfold run_ocr_endpoint
  rw [replay_guard_none_of_bind s now idem_key hb]
  simp only [hr, hc]
  rw [with_lock_not_acquired _ _ _ _ _ _ e hl]
  simp only
  cases get_cached_ocr (backoff ((rate_limit s now subject).2)) now image_url <;> simp

theorem run_ocr_endpoint_success (s : Store) (now : Nat) (rid subject image_url : String)
    (idem_key : Option String) (locale : Option String)
    (infer : String → Option String → Except InferErr (String × String))
    (backoff : Store → Store) (tc : String × String)
    (hb : idem_key.bind (fun k => idempotency_check s now k) = none)
    (hr : (rate_limit s now subject).1 = true)
    (hc : get_cached_ocr (rate_limit s now subject).2 now image_url = none)
    (hl : ((rate_limit s now subject).2).look now (ocr_lock_key image_url) = none)
    (hi : infer image_url locale = .ok tc) :
    run_ocr_endpoint s now rid subject idem_key image_url locale infer backoff =
      (let s1 := (rate_limit s now subject).2
       let s2 := release_lock
                   (redisSetEx s1 now (ocr_lock_key image_url) "1" lock_ttl_seconds)
                   (ocr_lock_key image_url)
       let sc := set_cached_ocr s2 now image_url tc.1 tc.2
       ⟨.ok ⟨tc.1, tc.2, rid, false, (sc.1 : Int)⟩,
         (match idem_key with
          | some k =>
              if k = "" then sc.2
              else set_idempotency sc.2 now k tc.1 sc.1
          | none => sc.2), true⟩) := by
  unfold run_ocr_endpoint
  rw [replay_guard_none_of_bind s now idem_key hb]
  simp only [hr, hc]
  rw [with_lock_acquired _ _ _ _ _ _ hl]
  simp [hi, Except.map]
  cases idem_key <;> rfl

theorem run_ocr_endpoint_infer_error (s : Store) (now : Nat) (rid subject image_url : String)
    (idem_key : Option String) (locale : Option String)
    (infer : String → Option String → Except InferErr (String × String))
    (backoff : Store → Store) (err : InferErr)
    (hb : idem_key.bind (fun k => idempotency_check s now k) = none)
    (hr : (rate_limit s now subject).1 = true)
    (hc : get_cached_ocr (rate_limit s now subject).2 now image_url = none)
    (hl : ((rate_limit s now subject).2).look now (ocr_lock_key image_url) = none)
    (hi : infer image_url locale = .error err) :
    run_ocr_endpoint s now rid subject idem_key image_url locale infer backoff =
      ⟨.error (.inferFailed err),
        release_lock
          (redisSetEx ((rate_limit s now subject).2) now (ocr_lock_key image_url) "1"
            lock_ttl_seconds)
          (ocr_lock_key image_url), true⟩ := by
  unfold run_ocr_endpoint
  rw [replay_guard_none_of_bind s now idem_key hb]
  simp only [hr, hc]
  rw [with_lock_acquired _ _ _ _ _ _ hl]
  simp [hi, Except.map]

/-! ## Claim theorems -/

/-- C9 counterexample: the replay branch mirrors Python's truthiness guard
`if idem_key and prior`, so a present but *empty* idempotency record does
not bypass anything: with the record `""` stored for the token, the request
falls through — `infer()` runs, the subject's rate counter is created and
incremented, and the response is a fresh result, not a replay. -/
theorem replay_skipped_for_empty_record :
    idempotency_check (set_idempotency emptyStore 0 "tok" "" 1800) 0 "tok" = some "" ∧
    (run_ocr_endpoint (set_idempotency emptyStore 0 "tok" "" 1800) 0 "r1" "alice"
        (some "tok") "https://x/a.png" none placeholderInfer id).inferRan = true ∧
    ((run_ocr_endpoint (set_idempotency emptyStore 0 "tok" "" 1800) 0 "r1" "alice"
        (some "tok") "https://x/a.png" none placeholderInfer id).store).look 0
        ("rate:user:" ++ "alice") = some ⟨.str "1", some (0 + 60)⟩ ∧
    (run_ocr_endpoint (set_idempotency emptyStore 0 "tok" "" 1800) 0 "r1" "alice"
        (some "tok") "https://x/a.png" none placeholderInfer id).resp =
      .ok ⟨"placeholder text", "0.42", "r1", false, 1800⟩ := by
  decide

/-- C9 (amended): if the request carries a non-empty idempotency token whose
stored record is present and non-empty (Python truthiness of
`if idem_key and prior`), the endpoint returns the stored payload (rebuilt
with confidence 1.0 and the configured OCR cache TTL) with cache_hit = true,
leaves the store completely unchanged — in particular the subject's rate
counter is not incremented and no cache or idempotency write happens — and
never invokes `infer()`.  The replay branch runs before the rate limiter is
consulted; a present but empty record (or empty token) takes the normal
path instead. -/
theorem replay_bypasses_rate_limit_and_infer
    (s : Store) (now : Nat) (rid subject k prior image_url : String)
    (locale : Option String)
    (infer : String → Option String → Except InferErr (String × String))
    (backoff : Store → Store)
    (hk : k ≠ "") (hp : prior ≠ "")
    (hit : idempotency_check s now k = some prior) :
    (run_ocr_endpoint s now rid subject (some k) image_url locale infer backoff).resp =
        .ok ⟨prior, "1.0", rid, true, (cache_ttl_ocr_seconds : Int)⟩ ∧
    (run_ocr_endpoint s now rid subject (some k) image_url locale infer backoff).store = s ∧
    (run_ocr_endpoint s now rid subject (some k) image_url locale infer backoff).inferRan =
        false := by
  rw [run_ocr_endpoint_replay s now rid subject k prior image_url locale infer backoff
    hk hp hit]
  exact ⟨rfl, rfl, rfl⟩

/-- Witness for C9 at a concrete store holding a non-empty record. -/
theorem replay_bypasses_rate_limit_and_infer_witness :
    (run_ocr_endpoint (set_idempotency emptyStore 0 "tok" "stored text" 1800) 0 "r2" "alice"
        (some "tok") "https://x/a.png" none placeholderInfer id).resp =
        .ok ⟨"stored text", "1.0", "r2", true, (cache_ttl_ocr_seconds : Int)⟩ ∧
    (run_ocr_endpoint (set_idempotency emptyStore 0 "tok" "stored text" 1800) 0 "r2" "alice"
        (some "tok") "https://x/a.png" none placeholderInfer id).store =
        set_idempotency emptyStore 0 "tok" "stored text" 1800 ∧
    (run_ocr_endpoint (set_idempotency emptyStore 0 "tok" "stored text" 1800) 0 "r2" "alice"
        (some "tok") "https://x/a.png" none placeholderInfer id).inferRan = false :=
  replay_bypasses_rate_limit_and_infer
    (set_idempotency emptyStore 0 "tok" "stored text" 1800) 0 "r2" "alice" "tok"
    "stored text" "https://x/a.png" none placeholderInfer id (by decide) (by decide)
    (by decide)

/-- C10: `with_lock` signals lock-unavailability by returning `None` and
otherwise returns the protected operation's own value, so a protected
operation that itself returns `None` is indistinguishable from a failed
acquisition (first conjunct: the two runs return equal values though only one
ran the operation); under the precondition that the operation never returns
`None`, the `None` sentinel is unambiguous: the result is `None` iff the lock
was not acquired (second conjunct). -/
theorem with_lock_none_sentinel :
    ((with_lock lockHeldStore 0 (ocr_lock_key "https://x/a.png") 30
        (Except.ok (some "v")) id).res =
      (with_lock emptyStore 0 (ocr_lock_key "https://x/a.png") 30
        (Except.ok (none : Option String)) id).res ∧
     (with_lock lockHeldStore 0 (ocr_lock_key "https://x/a.png") 30
        (Except.ok (some "v")) id).ran = false ∧
     (with_lock emptyStore 0 (ocr_lock_key "https://x/a.png") 30
        (Except.ok (none : Option String)) id).ran = true) ∧
    (∀ (α : Type) (s : Store) (now : Nat) (key : String) (ttl : Nat)
        (coro : Except InferErr (Option α)) (backoff : Store → Store),
      coro ≠ Except.ok none →
      ((with_lock s now key ttl coro backoff).res = Except.ok none ↔
        (acquire_lock s now key ttl).1 = false)) := by
  constructor
  · exact ⟨by decide, by decide, by decide⟩
  · intro α s now key ttl coro backoff hne
    unfold with_lock
    cases ha : (acquire_lock s now key ttl).1 <;> simp [ha, hne]

/-- Witness for C10 applying the unambiguity direction at concrete inputs. -/
theorem with_lock_none_sentinel_witness :
    (with_lock emptyStore 0 (ocr_lock_key "https://x/a.png") 30
        (Except.ok (some "v")) id).res = Except.ok none ↔
      (acquire_lock emptyStore 0 (ocr_lock_key "https://x/a.png") 30).1 = false :=
  with_lock_none_sentinel.2 String emptyStore 0 (ocr_lock_key "https://x/a.png") 30
    (Except.ok (some "v")) id (by decide)

/-- C7: when the lock is acquired and `infer()` raises (timeout or
computation error), the failure is propagated as the endpoint's error, the
lock key is released (it is not live afterwards), and apart from the
rate-limit counter — which was incremented before the lock path — every key's
live value is unchanged: in particular no cache entry and no idempotency
record is written. -/
theorem infer_failure_atomicity
    (s : Store) (now : Nat) (rid subject image_url : String)
    (idem_key : Option String) (locale : Option String)
    (infer : String → Option String → Except InferErr (String × String))
    (backoff : Store → Store) (err : InferErr)
    (hb : idem_key.bind (fun k => idempotency_check s now k) = none)
    (hr : (rate_limit s now subject).1 = true)
    (hc : get_cached_ocr (rate_limit s now subject).2 now image_url = none)
    (hl : ((rate_limit s now subject).2).look now (ocr_lock_key image_url) = none)
    (hi : infer image_url locale = .error err) :
    (run_ocr_endpoint s now rid subject idem_key image_url locale infer backoff).resp =
        .error (.inferFailed err) ∧
    (run_ocr_endpoint s now rid subject idem_key image_url locale infer backoff).inferRan =
        true ∧
    ((run_ocr_endpoint s now rid subject idem_key image_url locale infer backoff).store).look
        now (ocr_lock_key image_url) = none ∧
    (∀ x, x ≠ "rate:user:" ++ subject →
      ((run_ocr_endpoint s now rid subject idem_key image_url locale infer
          backoff).store).look now x = s.look now x) := by
  rw [run_ocr_endpoint_infer_error s now rid subject image_url idem_key locale infer backoff
    err hb hr hc hl hi]
  refine ⟨rfl, rfl, look_del_self _ _ _, ?_⟩
  intro x hx
  by_cases hlk : x = ocr_lock_key image_url
  · have hx2 : ocr_lock_key image_url ≠ "rate:user:" ++ subject := hlk ▸ hx
    rw [hlk, look_del_self]
    rw [rate_limit_look_other s now subject _ hx2] at hl
    exact hl.symm
  · rw [look_del_other _ _ _ _ hlk, look_setEx_other _ _ _ _ _ _ hlk]
    exact rate_limit_look_other s now subject x hx

/-- Witness for C7 at a concrete failing inference on the empty store. -/
theorem infer_failure_atomicity_witness :
    (run_ocr_endpoint emptyStore 0 "r1" "alice" none "https://x/a.png" none
        timeoutInfer id).resp = .error (.inferFailed .timeout) ∧
    (run_ocr_endpoint emptyStore 0 "r1" "alice" none "https://x/a.png" none
        timeoutInfer id).inferRan = true ∧
    ((run_ocr_endpoint emptyStore 0 "r1" "alice" none "https://x/a.png" none
        timeoutInfer id).store).look 0 (ocr_lock_key "https://x/a.png") = none ∧
    (∀ x, x ≠ "rate:user:" ++ "alice" →
      ((run_ocr_endpoint emptyStore 0 "r1" "alice" none "https://x/a.png" none
          timeoutInfer id).store).look 0 x = emptyStore.look 0 x) :=
  infer_failure_atomicity emptyStore 0 "r1" "alice" "https://x/a.png" none none
    timeoutInfer id .timeout (by decide) (by decide) (by decide) (by decide) (by decide)

/-- C2: at most one `infer()` is in flight per fingerprint at any instant
while the lock TTL has not expired (first conjunct: in the two-caller
interleaving machine, no reachable state has both callers inside `infer()`),
and a caller that fails to acquire the lock never executes `infer()`: it
backs off, re-reads the cache exactly once, returns the re-read value with
cache_hit = true on a hit, and fails with UNAVAILABLE (HTTP 503) on a miss
(second conjunct, on the endpoint). -/
theorem lock_mutual_exclusion_and_contention
    (now : Nat) (key : String) (ttl : Nat) (hpos : 0 < ttl)
    (s0 : Store) (st : TwoProc)
    (hreach : Relation.ReflTransGen (LockStep now key ttl) ⟨s0, .start, .start⟩ st)
    (s : Store) (rid subject image_url : String) (idem_key : Option String)
    (locale : Option String)
    (infer : String → Option String → Except InferErr (String × String))
    (backoff : Store → Store) (e : Entry)
    (hb : idem_key.bind (fun k => idempotency_check s now k) = none)
    (hr : (rate_limit s now subject).1 = true)
    (hc : get_cached_ocr (rate_limit s now subject).2 now image_url = none)
    (hl : ((rate_limit s now subject).2).look now (ocr_lock_key image_url) = some e) :
    (¬(st.p1 = .inferring ∧ st.p2 = .inferring)) ∧
    ((run_ocr_endpoint s now rid subject idem_key image_url locale infer backoff).inferRan =
        false ∧
     (run_ocr_endpoint s now rid subject idem_key image_url locale infer backoff).store =
        backoff ((rate_limit s now subject).2) ∧
     ((∃ cached, get_cached_ocr (backoff ((rate_limit s now subject).2)) now image_url =
            some cached ∧
        (run_ocr_endpoint s now rid subject idem_key image_url locale infer backoff).resp =
          .ok ⟨cached.text, cached.confidence, rid, true, cached.ttl⟩) ∨
      (get_cached_ocr (backoff ((rate_limit s now subject).2)) now image_url = none ∧
        (run_ocr_endpoint s now rid subject idem_key image_url locale infer backoff).resp =
          .error .unavailable))) := by
  constructor
  · rintro ⟨h1, h2⟩
    have hinv := lockInv_reachable now key ttl hpos s0 st hreach
    exact hinv.2 ⟨by rw [h1]; rfl, by rw [h2]; rfl⟩
  · rw [run_ocr_endpoint_locked s now rid subject image_url idem_key locale infer backoff e
      hb hr hc hl]
    cases hg : get_cached_ocr (backoff ((rate_limit s now subject).2)) now image_url with
    | some cached => exact ⟨rfl, rfl, Or.inl ⟨cached, rfl, rfl⟩⟩
    | none => exact ⟨rfl, rfl, Or.inr ⟨rfl, rfl⟩⟩

/-- Witness for C2 at the initial machine state and a concrete store whose
lock key is held by another caller. -/
theorem lock_mutual_exclusion_and_contention_witness :
    (¬((TwoProc.mk emptyStore .start .start).p1 = .inferring ∧
        (TwoProc.mk emptyStore .start .start).p2 = .inferring)) ∧
    ((run_ocr_endpoint lockHeldStore 0 "r1" "alice" none "https://x/a.png" none
        placeholderInfer id).inferRan = false ∧
     (run_ocr_endpoint lockHeldStore 0 "r1" "alice" none "https://x/a.png" none
        placeholderInfer id).store = id ((rate_limit lockHeldStore 0 "alice").2) ∧
     ((∃ cached, get_cached_ocr (id ((rate_limit lockHeldStore 0 "alice").2)) 0
            "https://x/a.png" = some cached ∧
        (run_ocr_endpoint lockHeldStore 0 "r1" "alice" none "https://x/a.png" none
          placeholderInfer id).resp =
          .ok ⟨cached.text, cached.confidence, "r1", true, cached.ttl⟩) ∨
      (get_cached_ocr (id ((rate_limit lockHeldStore 0 "alice").2)) 0 "https://x/a.png" =
          none ∧
        (run_ocr_endpoint lockHeldStore 0 "r1" "alice" none "https://x/a.png" none
          placeholderInfer id).resp = .error .unavailable))) :=
  lock_mutual_exclusion_and_contention 0 (ocr_lock_key "https://x/a.png") 30 (by decide)
    emptyStore ⟨emptyStore, .start, .start⟩ Relation.ReflTransGen.refl
    lockHeldStore "r1" "alice" "https://x/a.png" none none placeholderInfer id
    ⟨.str "1", some 30⟩ rfl (by decide) (by decide) (by decide)

theorem set_cached_ocr_fst (s : Store) (now : Nat) (u t c : String) :
    (set_cached_ocr s now u t c).1 = cache_ttl_ocr_seconds := rfl

/-- C1 (amended): after a first request with a non-empty token completes a
fresh successful inference returning `(text, confidence)` with non-empty
text, a second request with the same token replays without invoking
`infer()` and without touching the store, and its payload carries the same
`text`; but the payload is not byte-identical in general: the replay is
rebuilt with confidence fixed at 1.0, cache_hit = true, and ttl_seconds
fixed at the configured cache TTL, while the original carried the real
confidence, cache_hit = false.  (The non-emptiness conditions mirror the
source's truthiness guard `if idem_key and prior`: an empty token or an
empty stored text makes the second request skip the replay branch.) -/
theorem idempotent_replay_rebuilds_payload
    (s : Store) (now : Nat) (rid rid2 subject subject2 tok image_url image_url2 : String)
    (locale locale2 : Option String)
    (infer infer2 : String → Option String → Except InferErr (String × String))
    (backoff backoff2 : Store → Store) (tc : String × String)
    (htok : tok ≠ "") (htext : tc.1 ≠ "")
    (hb : idempotency_check s now tok = none)
    (hr : (rate_limit s now subject).1 = true)
    (hc : get_cached_ocr (rate_limit s now subject).2 now image_url = none)
    (hl : ((rate_limit s now subject).2).look now (ocr_lock_key image_url) = none)
    (hi : infer image_url locale = .ok tc) :
    (run_ocr_endpoint s now rid subject (some tok) image_url locale infer backoff).resp =
        .ok ⟨tc.1, tc.2, rid, false, (cache_ttl_ocr_seconds : Int)⟩ ∧
    (run_ocr_endpoint s now rid subject (some tok) image_url locale infer
        backoff).inferRan = true ∧
    (run_ocr_endpoint
        (run_ocr_endpoint s now rid subject (some tok) image_url locale infer backoff).store
        now rid2 subject2 (some tok) image_url2 locale2 infer2 backoff2).resp =
        .ok ⟨tc.1, "1.0", rid2, true, (cache_ttl_ocr_seconds : Int)⟩ ∧
    (run_ocr_endpoint
        (run_ocr_endpoint s now rid subject (some tok) image_url locale infer backoff).store
        now rid2 subject2 (some tok) image_url2 locale2 infer2 backoff2).store =
      (run_ocr_endpoint s now rid subject (some tok) image_url locale infer backoff).store ∧
    (run_ocr_endpoint
        (run_ocr_endpoint s now rid subject (some tok) image_url locale infer backoff).store
        now rid2 subject2 (some tok) image_url2 locale2 infer2 backoff2).inferRan = false := by
  have hb2 : (Option.some tok).bind (fun k => idempotency_check s now k) = none := by
    simpa using hb
  have hfirst := run_ocr_endpoint_success s now rid subject image_url (some tok) locale
    infer backoff tc hb2 hr hc hl hi
  have hresp1 : (run_ocr_endpoint s now rid subject (some tok) image_url locale infer
      backoff).resp = .ok ⟨tc.1, tc.2, rid, false, (cache_ttl_ocr_seconds : Int)⟩ := by
    rw [hfirst]; rfl
  have hran1 : (run_ocr_endpoint s now rid subject (some tok) image_url locale infer
      backoff).inferRan = true := by
    rw [hfirst]
  have hstore1 : (run_ocr_endpoint s now rid subject (some tok) image_url locale infer
      backoff).store =
      set_idempotency
        (set_cached_ocr
          (release_lock
            (redisSetEx ((rate_limit s now subject).2) now (ocr_lock_key image_url) "1"
              lock_ttl_seconds)
            (ocr_lock_key image_url)) now image_url tc.1 tc.2).2
        now tok tc.1
        (set_cached_ocr
          (release_lock
            (redisSetEx ((rate_limit s now subject).2) now (ocr_lock_key image_url) "1"
              lock_ttl_seconds)
            (ocr_lock_key image_url)) now image_url tc.1 tc.2).1 := by
    rw [hfirst]
    simp [htok]
  have hit2 : idempotency_check
      (run_ocr_endpoint s now rid subject (some tok) image_url locale infer backoff).store
      now tok = some tc.1 := by
    rw [hstore1]
    unfold idempotency_check set_idempotency
    exact redisGet_setEx_self _ _ _ _ _ (by rw [set_cached_ocr_fst]; decide)
  have hsecond := run_ocr_endpoint_replay
    (run_ocr_endpoint s now rid subject (some tok) image_url locale infer backoff).store
    now rid2 subject2 tok tc.1 image_url2 locale2 infer2 backoff2 htok htext hit2
  refine ⟨hresp1, hran1, ?_, ?_, ?_⟩
  · rw [hsecond]
  · rw [hsecond]
  · rw [hsecond]

/-- Witness for C1's amended theorem on the empty store with the placeholder
inference. -/
theorem idempotent_replay_rebuilds_payload_witness :
    (run_ocr_endpoint emptyStore 0 "r1" "alice" (some "tok") "https://x/a.png" none
        placeholderInfer id).resp =
        .ok ⟨"placeholder text", "0.42", "r1", false, (cache_ttl_ocr_seconds : Int)⟩ ∧
    (run_ocr_endpoint emptyStore 0 "r1" "alice" (some "tok") "https://x/a.png" none
        placeholderInfer id).inferRan = true ∧
    (run_ocr_endpoint
        (run_ocr_endpoint emptyStore 0 "r1" "alice" (some "tok") "https://x/a.png" none
          placeholderInfer id).store
        0 "r2" "bob" (some "tok") "https://x/a.png" none placeholderInfer id).resp =
        .ok ⟨"placeholder text", "1.0", "r2", true, (cache_ttl_ocr_seconds : Int)⟩ ∧
    (run_ocr_endpoint
        (run_ocr_endpoint emptyStore 0 "r1" "alice" (some "tok") "https://x/a.png" none
          placeholderInfer id).store
        0 "r2" "bob" (some "tok") "https://x/a.png" none placeholderInfer id).store =
      (run_ocr_endpoint emptyStore 0 "r1" "alice" (some "tok") "https://x/a.png" none
        placeholderInfer id).store ∧
    (run_ocr_endpoint
        (run_ocr_endpoint emptyStore 0 "r1" "alice" (some "tok") "https://x/a.png" none
          placeholderInfer id).store
        0 "r2" "bob" (some "tok") "https://x/a.png" none placeholderInfer id).inferRan =
      false :=
  idempotent_replay_rebuilds_payload emptyStore 0 "r1" "r2" "alice" "bob" "tok"
    "https://x/a.png" "https://x/a.png" none none placeholderInfer placeholderInfer id id
    ("placeholder text", "0.42") (by decide) (by decide) (by decide) (by decide)
    (by decide) (by decide) rfl

/-- C1 counterexample: the replayed payload is not byte-identical to the
original even with identical request ids — confidence is rebuilt as 1.0 and
cache_hit flips to true — although the replay does return the same text and
never invokes `infer()`. -/
theorem idempotent_replay_not_byte_identical :
    (run_ocr_endpoint
        (run_ocr_endpoint emptyStore 0 "r" "alice" (some "tok") "https://x/a.png" none
          placeholderInfer id).store
        0 "r" "alice" (some "tok") "https://x/a.png" none placeholderInfer id).inferRan =
      false ∧
    (run_ocr_endpoint emptyStore 0 "r" "alice" (some "tok") "https://x/a.png" none
        placeholderInfer id).resp =
      .ok ⟨"placeholder text", "0.42", "r", false, 1800⟩ ∧
    (run_ocr_endpoint
        (run_ocr_endpoint emptyStore 0 "r" "alice" (some "tok") "https://x/a.png" none
          placeholderInfer id).store
        0 "r" "alice" (some "tok") "https://x/a.png" none placeholderInfer id).resp =
      .ok ⟨"placeholder text", "1.0", "r", true, 1800⟩ ∧
    (run_ocr_endpoint emptyStore 0 "r" "alice" (some "tok") "https://x/a.png" none
        placeholderInfer id).resp ≠
      (run_ocr_endpoint
        (run_ocr_endpoint emptyStore 0 "r" "alice" (some "tok") "https://x/a.png" none
          placeholderInfer id).store
        0 "r" "alice" (some "tok") "https://x/a.png" none placeholderInfer id).resp := by
  decide

theorem look_some_live (s : Store) (now : Nat) (k : String) (e : Entry)
    (h : s.look now k = some e) : entryLive now e = true := by
  unfold Store.look at h
  cases hk : s k with
  | none => simp [hk] at h
  | some e2 =>
      simp only [hk] at h
      by_cases hl : entryLive now e2 = true
      · rw [if_pos hl] at h
        cases h
        exact hl
      · rw [if_neg hl] at h
        cases h

theorem get_cached_ocr_after_set (s : Store) (now : Nat) (u t c : String) :
    get_cached_ocr (set_cached_ocr s now u t c).2 now u =
      some ⟨t, c, (cache_ttl_ocr_seconds : Int)⟩ := by
  have hlt : now < now + cache_ttl_ocr_seconds := Nat.lt_add_of_pos_right (by decide)
  unfold get_cached_ocr set_cached_ocr redisHset
  cases hl : Store.look s now (ocr_cache_key u) with
  | none =>
      simp only [hl]
      simp [redisExpire, redisHgetall, redisTtl, Store.look, entryLive, hlt,
            setFields, lookupField]
  | some e =>
      obtain ⟨val, exp⟩ := e
      have hlive := look_some_live s now _ _ hl
      cases val with
      | str v =>
          simp only [hl]
          simp [redisExpire, redisHgetall, redisTtl, Store.look, entryLive, hlt,
                setFields, lookupField]
      | hash fs =>
          simp only [hl]
          cases exp with
          | none =>
              simp [redisExpire, redisHgetall, redisTtl, Store.look, entryLive, hlt,
                    setFields, lookupField]
          | some tt =>
              have htt : now < tt := by simpa [entryLive] using hlive
              simp [redisExpire, redisHgetall, redisTtl, Store.look, entryLive, hlt, htt,
                    setFields, lookupField]

theorem get_cached_object_detection_after_set (s : Store) (now : Nat)
    (u thr objs : String) :
    get_cached_object_detection (set_cached_object_detection s now u thr objs).2 now u thr =
      some ⟨objs, (cache_ttl_object_detection_seconds : Int)⟩ := by
  have hlt : now < now + cache_ttl_object_detection_seconds :=
    Nat.lt_add_of_pos_right (by decide)
  unfold get_cached_object_detection set_cached_object_detection
  simp [redisGet, redisTtl, redisSetEx, Store.look, entryLive, hlt]

theorem get_cached_scene_caption_after_set (s : Store) (now : Nat)
    (u ml cap c : String) :
    get_cached_scene_caption (set_cached_scene_caption s now u ml cap c).2 now u ml =
      some ⟨cap, c, (cache_ttl_scene_caption_seconds : Int)⟩ := by
  have hlt : now < now + cache_ttl_scene_caption_seconds :=
    Nat.lt_add_of_pos_right (by decide)
  unfold get_cached_scene_caption set_cached_scene_caption redisHset
  cases hl : Store.look s now (scene_caption_cache_key u ml) with
  | none =>
      simp only [hl]
      simp [redisExpire, redisHgetall, redisTtl, Store.look, entryLive, hlt,
            setFields, lookupField]
  | some e =>
      obtain ⟨val, exp⟩ := e
      have hlive := look_some_live s now _ _ hl
      cases val with
      | str v =>
          simp only [hl]
          simp [redisExpire, redisHgetall, redisTtl, Store.look, entryLive, hlt,
                setFields, lookupField]
      | hash fs =>
          simp only [hl]
          cases exp with
          | none =>
              simp [redisExpire, redisHgetall, redisTtl, Store.look, entryLive, hlt,
                    setFields, lookupField]
          | some tt =>
              have htt : now < tt := by simpa [entryLive] using hlive
              simp [redisExpire, redisHgetall, redisTtl, Store.look, entryLive, hlt, htt,
                    setFields, lookupField]

theorem get_cached_multimodal_llm_after_set_some (s : Store) (now : Nat)
    (u p mt te resp c : String) (hc : c ≠ "") :
    get_cached_multimodal_llm
        (set_cached_multimodal_llm s now u p mt te resp (some c)).2 now u p mt te =
      some ⟨resp, some c, (cache_ttl_multimodal_llm_seconds : Int)⟩ := by
  have hlt : now < now + cache_ttl_multimodal_llm_seconds :=
    Nat.lt_add_of_pos_right (by decide)
  unfold get_cached_multimodal_llm set_cached_multimodal_llm redisHset
  cases hl : Store.look s now (multimodal_llm_cache_key u p mt te) with
  | none =>
      simp only [hl]
      simp [redisExpire, redisHgetall, redisTtl, Store.look, entryLive, hlt,
            setFields, lookupField, hc]
  | some e =>
      obtain ⟨val, exp⟩ := e
      have hlive := look_some_live s now _ _ hl
      cases val with
      | str v =>
          simp only [hl]
          simp [redisExpire, redisHgetall, redisTtl, Store.look, entryLive, hlt,
                setFields, lookupField, hc]
      | hash fs =>
          simp only [hl]
          cases exp with
          | none =>
              simp [redisExpire, redisHgetall, redisTtl, Store.look, entryLive, hlt,
                    setFields, lookupField, hc]
          | some tt =>
              have htt : now < tt := by simpa [entryLive] using hlive
              simp [redisExpire, redisHgetall, redisTtl, Store.look, entryLive, hlt, htt,
                    setFields, lookupField, hc]

theorem get_cached_multimodal_llm_after_set_none (s : Store) (now : Nat)
    (u p mt te resp : String)
    (hfresh : s.look now (multimodal_llm_cache_key u p mt te) = none) :
    get_cached_multimodal_llm
        (set_cached_multimodal_llm s now u p mt te resp none).2 now u p mt te =
      some ⟨resp, none, (cache_ttl_multimodal_llm_seconds : Int)⟩ := by
  have hlt : now < now + cache_ttl_multimodal_llm_seconds :=
    Nat.lt_add_of_pos_right (by decide)
  unfold get_cached_multimodal_llm set_cached_multimodal_llm redisHset
  simp only [hfresh]
  simp [redisExpire, redisHgetall, redisTtl, Store.look, entryLive, hlt,
        setFields, lookupField]

/-- C8 counterexample: the put/get round trip is not exact for every kind
from every state.  The multimodal-LLM put with no confidence writes only the
`response` field, and Redis `HSET` merges fields into an existing hash: over
an entry that already holds a confidence, the following get returns the
*stale* confidence instead of the just-written payload. -/
theorem multimodal_put_get_stale_confidence :
    get_cached_multimodal_llm
        (set_cached_multimodal_llm
          (set_cached_multimodal_llm emptyStore 0 "https://x/a.png" "what is this"
            "256" "0.7" "old" (some "0.9")).2
          0 "https://x/a.png" "what is this" "256" "0.7" "new" none).2
        0 "https://x/a.png" "what is this" "256" "0.7" =
      some ⟨"new", some "0.9", (cache_ttl_multimodal_llm_seconds : Int)⟩ ∧
    get_cached_multimodal_llm
        (set_cached_multimodal_llm
          (set_cached_multimodal_llm emptyStore 0 "https://x/a.png" "what is this"
            "256" "0.7" "old" (some "0.9")).2
          0 "https://x/a.png" "what is this" "256" "0.7" "new" none).2
        0 "https://x/a.png" "what is this" "256" "0.7" ≠
      some ⟨"new", none, (cache_ttl_multimodal_llm_seconds : Int)⟩ := by
  decide

/-- C8 (amended): a put immediately followed by a get for the same
fingerprint returns exactly the just-written payload together with the
kind's configured TTL (OCR, detection and captioning 1800 s, multimodal LLM
3600 s), which is positive — so the reported TTL is ≤ the configured value
and neither negative nor unset — for every prior store for OCR, detection,
captioning, and the multimodal LLM when a confidence is written; for a
multimodal-LLM put without a confidence the exact round trip holds only for
a fresh fingerprint, because `HSET` merges and can leave a stale confidence
field in place. -/
theorem cache_put_get_roundtrip :
    (∀ (s : Store) (now : Nat) (u t c : String),
      get_cached_ocr (set_cached_ocr s now u t c).2 now u =
          some ⟨t, c, (cache_ttl_ocr_seconds : Int)⟩ ∧
      (set_cached_ocr s now u t c).1 = cache_ttl_ocr_seconds) ∧
    (∀ (s : Store) (now : Nat) (u thr objs : String),
      get_cached_object_detection (set_cached_object_detection s now u thr objs).2
          now u thr = some ⟨objs, (cache_ttl_object_detection_seconds : Int)⟩ ∧
      (set_cached_object_detection s now u thr objs).1 =
          cache_ttl_object_detection_seconds) ∧
    (∀ (s : Store) (now : Nat) (u ml cap c : String),
      get_cached_scene_caption (set_cached_scene_caption s now u ml cap c).2 now u ml =
          some ⟨cap, c, (cache_ttl_scene_caption_seconds : Int)⟩ ∧
      (set_cached_scene_caption s now u ml cap c).1 = cache_ttl_scene_caption_seconds) ∧
    (∀ (s : Store) (now : Nat) (u p mt te resp c : String), c ≠ "" →
      get_cached_multimodal_llm
          (set_cached_multimodal_llm s now u p mt te resp (some c)).2 now u p mt te =
        some ⟨resp, some c, (cache_ttl_multimodal_llm_seconds : Int)⟩) ∧
    (∀ (s : Store) (now : Nat) (u p mt te resp : String),
      s.look now (multimodal_llm_cache_key u p mt te) = none →
      get_cached_multimodal_llm
          (set_cached_multimodal_llm s now u p mt te resp none).2 now u p mt te =
        some ⟨resp, none, (cache_ttl_multimodal_llm_seconds : Int)⟩) ∧
    (0 < cache_ttl_ocr_seconds ∧ 0 < cache_ttl_object_detection_seconds ∧
     0 < cache_ttl_scene_caption_seconds ∧ 0 < cache_ttl_multimodal_llm_seconds) :=
  ⟨fun s now u t c => ⟨get_cached_ocr_after_set s now u t c, rfl⟩,
   fun s now u thr objs => ⟨get_cached_object_detection_after_set s now u thr objs, rfl⟩,
   fun s now u ml cap c => ⟨get_cached_scene_caption_after_set s now u ml cap c, rfl⟩,
   fun s now u p mt te resp c hc =>
     get_cached_multimodal_llm_after_set_some s now u p mt te resp c hc,
   fun s now u p mt te resp hfresh =>
     get_cached_multimodal_llm_after_set_none s now u p mt te resp hfresh,
   by decide, by decide, by decide, by decide⟩

/-- Witness for C8 applying the hypothesis-bearing multimodal-LLM conjuncts
at concrete inputs. -/
theorem cache_put_get_roundtrip_witness :
    get_cached_multimodal_llm
        (set_cached_multimodal_llm emptyStore 0 "https://x/a.png" "what is this"
          "256" "0.7" "a cat" (some "0.9")).2 0 "https://x/a.png" "what is this"
        "256" "0.7" =
      some ⟨"a cat", some "0.9", (cache_ttl_multimodal_llm_seconds : Int)⟩ ∧
    get_cached_multimodal_llm
        (set_cached_multimodal_llm emptyStore 0 "https://x/a.png" "what is this"
          "256" "0.7" "a cat" none).2 0 "https://x/a.png" "what is this" "256" "0.7" =
      some ⟨"a cat", none, (cache_ttl_multimodal_llm_seconds : Int)⟩ :=
  ⟨cache_put_get_roundtrip.2.2.2.1 emptyStore 0 "https://x/a.png" "what is this"
      "256" "0.7" "a cat" "0.9" (by decide),
   cache_put_get_roundtrip.2.2.2.2.1 emptyStore 0 "https://x/a.png" "what is this"
      "256" "0.7" "a cat" (by decide)⟩

theorem string_append_cancel_left {a b c : String} (h : a ++ b = a ++ c) : b = c := by
  have h2 := congrArg String.data h
  rw [String.data_append, String.data_append] at h2
  exact String.ext (List.append_cancel_left h2)

theorem get_cached_ocr_congr (s1 s2 : Store) (now : Nat) (u : String)
    (h : s1 (ocr_cache_key u) = s2 (ocr_cache_key u)) :
    get_cached_ocr s1 now u = get_cached_ocr s2 now u := by
  have he := look_congr_app s1 s2 now (ocr_cache_key u) h
  unfold get_cached_ocr redisHgetall redisTtl
  simp only [he]

/-- C4 counterexample: the locale parameter changes the inference output
(`localeInfer` returns different text for `en` and `fr`) but the OCR
fingerprint is derived from the image URL only, so the second request —
differing from the first only in locale — hits the first request's cache
entry: it returns the English text with cache_hit = true and never runs
`infer()`.  A parameter that affects the inference output therefore does not
change the fingerprint. -/
theorem ocr_fingerprint_ignores_locale :
    localeInfer "https://x/a.png" (some "en") ≠ localeInfer "https://x/a.png" (some "fr") ∧
    (run_ocr_endpoint emptyStore 0 "r1" "alice" none "https://x/a.png" (some "en")
        localeInfer id).resp = .ok ⟨"hello", "0.9", "r1", false, 1800⟩ ∧
    (run_ocr_endpoint
        (run_ocr_endpoint emptyStore 0 "r1" "alice" none "https://x/a.png" (some "en")
          localeInfer id).store
        0 "r2" "alice" none "https://x/a.png" (some "fr") localeInfer id).resp =
      .ok ⟨"hello", "0.9", "r2", true, 1800⟩ ∧
    (run_ocr_endpoint
        (run_ocr_endpoint emptyStore 0 "r1" "alice" none "https://x/a.png" (some "en")
          localeInfer id).store
        0 "r2" "alice" none "https://x/a.png" (some "fr") localeInfer id).inferRan =
      false := by
  decide

/-- C4 (amended): fingerprints are deterministic functions of their
arguments (no per-process salt, by construction of the model), and a
parameter that is part of the hashed key changes the fingerprint — for
object detection, distinct confidence thresholds give distinct keys (first
conjunct, using collision resistance of the digest) — but OCR's locale is
not part of the key: a second request for the same URL under any other
locale is served the first request's cached result without running
`infer()` (second conjunct). -/
theorem fingerprint_sensitivity_and_locale_gap :
    (∀ (u t1 t2 : String), t1 ≠ t2 →
        object_detection_cache_key u t1 ≠ object_detection_cache_key u t2) ∧
    (∀ (s : Store) (now : Nat) (rid rid2 subject subject2 image_url : String)
        (l1 l2 : Option String)
        (infer infer2 : String → Option String → Except InferErr (String × String))
        (backoff backoff2 : Store → Store) (tc : String × String),
      (rate_limit s now subject).1 = true →
      get_cached_ocr (rate_limit s now subject).2 now image_url = none →
      ((rate_limit s now subject).2).look now (ocr_lock_key image_url) = none →
      infer image_url l1 = .ok tc →
      (rate_limit
          (run_ocr_endpoint s now rid subject none image_url l1 infer backoff).store
          now subject2).1 = true →
      (run_ocr_endpoint
          (run_ocr_endpoint s now rid subject none image_url l1 infer backoff).store
          now rid2 subject2 none image_url l2 infer2 backoff2).resp =
        .ok ⟨tc.1, tc.2, rid2, true, (cache_ttl_ocr_seconds : Int)⟩ ∧
      (run_ocr_endpoint
          (run_ocr_endpoint s now rid subject none image_url l1 infer backoff).store
          now rid2 subject2 none image_url l2 infer2 backoff2).inferRan = false) := by
  constructor
  · intro u t1 t2 hne h
    unfold object_detection_cache_key sha256hex at h
    exact hne (string_append_cancel_left (string_append_cancel_left h))
  · intro s now rid rid2 subject subject2 image_url l1 l2 infer infer2 backoff backoff2 tc
      hr hc hl hi hr2
    have hfirst := run_ocr_endpoint_success s now rid subject image_url none l1
      infer backoff tc rfl hr hc hl hi
    have hstore1 : (run_ocr_endpoint s now rid subject none image_url l1 infer
        backoff).store =
        (set_cached_ocr
          (release_lock
            (redisSetEx ((rate_limit s now subject).2) now (ocr_lock_key image_url) "1"
              lock_ttl_seconds)
            (ocr_lock_key image_url)) now image_url tc.1 tc.2).2 := by
      rw [hfirst]
    have hckrate : ocr_cache_key image_url ≠ "rate:user:" ++ subject2 := by
      unfold ocr_cache_key
      exact keys_ne_of_head "cache:ocr:" "rate:user:" _ _ 'c' 'r' _ _ rfl rfl (by decide)
    have hcget : get_cached_ocr
        (rate_limit
          (run_ocr_endpoint s now rid subject none image_url l1 infer backoff).store
          now subject2).2 now image_url =
        some ⟨tc.1, tc.2, (cache_ttl_ocr_seconds : Int)⟩ := by
      rw [get_cached_ocr_congr _ _ now image_url
        (rate_limit_app_other _ now subject2 _ hckrate), hstore1]
      exact get_cached_ocr_after_set _ now image_url tc.1 tc.2
    have hsecond := run_ocr_endpoint_cache_hit
      (run_ocr_endpoint s now rid subject none image_url l1 infer backoff).store
      now rid2 subject2 image_url none l2 infer2 backoff2
      ⟨tc.1, tc.2, (cache_ttl_ocr_seconds : Int)⟩ rfl hr2 hcget
    rw [hsecond]
    exact ⟨rfl, rfl⟩

/-- Witness for C4's amended theorem: concrete distinct detection thresholds
and a concrete cross-locale second request. -/
theorem fingerprint_sensitivity_and_locale_gap_witness :
    object_detection_cache_key "https://x/a.png" "0.25" ≠
      object_detection_cache_key "https://x/a.png" "0.5" ∧
    ((run_ocr_endpoint
        (run_ocr_endpoint emptyStore 0 "r1" "alice" none "https://x/a.png" (some "en")
          localeInfer id).store
        0 "r2" "bob" none "https://x/a.png" (some "fr") localeInfer id).resp =
      .ok ⟨"hello", "0.9", "r2", true, (cache_ttl_ocr_seconds : Int)⟩ ∧
     (run_ocr_endpoint
        (run_ocr_endpoint emptyStore 0 "r1" "alice" none "https://x/a.png" (some "en")
          localeInfer id).store
        0 "r2" "bob" none "https://x/a.png" (some "fr") localeInfer id).inferRan =
      false) :=
  ⟨fingerprint_sensitivity_and_locale_gap.1 "https://x/a.png" "0.25" "0.5" (by decide),
   fingerprint_sensitivity_and_locale_gap.2 emptyStore 0 "r1" "r2" "alice" "bob"
     "https://x/a.png" (some "en") (some "fr") localeInfer localeInfer id id
     ("hello", "0.9") (by decide) (by decide) (by decide) (by decide) (by decide)⟩

/-- C5: each call atomically increments the subject's counter, refreshes the
window expiry to the configured window length, and admits the request iff
the post-increment count is within the limit (first two conjuncts: the step
on an existing counter and on an absent or expired one); concretely, with
limit 30 per 60 s window, 31 calls in one window admit the first 30 and
reject the 31st, and a call after the window has elapsed is admitted again
(last two conjuncts). -/
theorem rate_limit_fixed_window :
    (∀ (s : Store) (now : Nat) (u v : String) (exp : Option Nat) (n : Int),
      s.look now ("rate:user:" ++ u) = some ⟨.str v, exp⟩ →
      strToInt? v = some n →
      (rate_limit s now u).1 = decide (n + 1 ≤ (rate_limit_requests : Int)) ∧
      ((rate_limit s now u).2).look now ("rate:user:" ++ u) =
        some ⟨.str (toString (n + 1)), some (now + rate_limit_window_seconds)⟩) ∧
    (∀ (s : Store) (now : Nat) (u : String),
      s.look now ("rate:user:" ++ u) = none →
      (rate_limit s now u).1 = true ∧
      ((rate_limit s now u).2).look now ("rate:user:" ++ u) =
        some ⟨.str "1", some (now + rate_limit_window_seconds)⟩) ∧
    ((rateCalls emptyStore 0 "alice" 31).1 = List.replicate 30 true ++ [false]) ∧
    ((rate_limit (rateCalls emptyStore 0 "alice" 31).2 60 "alice").1 = true) := by
  have hwin : ∀ now : Nat, now < now + rate_limit_window_seconds :=
    fun now => Nat.lt_add_of_pos_right (by decide)
  refine ⟨?_, ?_, by decide, by decide⟩
  · intro s now u v exp n hlook hv
    have hlive : entryLive now (⟨.str v, exp⟩ : Entry) = true := look_some_live s now _ _ hlook
    cases exp with
    | none =>
        unfold rate_limit redisIncr redisExpire
        simp only [hlook, hv]
        exact ⟨rfl, by simp [Store.look, entryLive, hwin now]⟩
    | some tt =>
        have htt : now < tt := by simpa [entryLive] using hlive
        unfold rate_limit redisIncr redisExpire
        simp only [hlook, hv]
        exact ⟨rfl, by simp [Store.look, entryLive, htt, hwin now]⟩
  · intro s now u hlook
    unfold rate_limit redisIncr redisExpire
    simp only [hlook]
    constructor
    · rfl
    · simp [Store.look, entryLive, hwin now]

/-- Witness for C5 applying the counter-step conjuncts at concrete stores. -/
theorem rate_limit_fixed_window_witness :
    ((rate_limit (rateCalls emptyStore 0 "alice" 1).2 0 "alice").1 =
        decide ((1 : Int) + 1 ≤ (rate_limit_requests : Int)) ∧
     ((rate_limit (rateCalls emptyStore 0 "alice" 1).2 0 "alice").2).look 0
        ("rate:user:" ++ "alice") =
       some ⟨.str (toString ((1 : Int) + 1)), some (0 + rate_limit_window_seconds)⟩) ∧
    ((rate_limit emptyStore 0 "bob").1 = true ∧
     ((rate_limit emptyStore 0 "bob").2).look 0 ("rate:user:" ++ "bob") =
       some ⟨.str "1", some (0 + rate_limit_window_seconds)⟩) :=
  ⟨rate_limit_fixed_window.1 (rateCalls emptyStore 0 "alice" 1).2 0 "alice" "1"
      (some 60) 1 (by decide) (by decide),
   rate_limit_fixed_window.2.1 emptyStore 0 "bob" (by decide)⟩

theorem create_job_app_fresh (s : Store) (now : Nat) (jid jt iu params : String) (est : Nat)
    (hfree : s.look now (job_key jid) = none) :
    (create_job s now jid jt iu params est) (job_key jid) =
      some ⟨.hash (setFields []
        [ ("job_id", jid), ("job_type", jt), ("image_url", iu)
        , ("parameters", params), ("status", JobStatus.pending.value)
        , ("created_at", toString now)
        , ("estimated_completion_seconds", toString est)
        , ("progress_percent", "0") ]),
        some (now + (est + 300))⟩ := by
  have hne : job_key jid ≠ job_status_key jid := by
    unfold job_key job_status_key
    exact keys_ne_of_len "job:" "job:status:" jid jid (by decide) rfl
  unfold create_job redisHset
  simp only [hfree]
  simp [redisExpire, redisSetEx, Store.look, entryLive, hne]

theorem create_job_app_status_key (s : Store) (now : Nat) (jid jt iu params : String)
    (est : Nat) :
    (create_job s now jid jt iu params est) (job_status_key jid) =
      some ⟨.str JobStatus.pending.value, some (now + (est + 300))⟩ := by
  unfold create_job redisSetEx
  simp

/-- The job hash read by `get_job_status`, as a function of the raw slot. -/
theorem get_job_status_of_hash (s : Store) (now : Nat) (jid : String)
    (fs : List (String × String)) (exp : Option Nat)
    (happ : s (job_key jid) = some ⟨.hash fs, exp⟩)
    (hlive : entryLive now (⟨.hash fs, exp⟩ : Entry) = true)
    (hne : fs.isEmpty = false) :
    get_job_status s now jid = some
      { job_id := (lookupField fs "job_id").getD jid
      , job_type := lookupField fs "job_type"
      , image_url := lookupField fs "image_url"
      , parameters := (lookupField fs "parameters").getD ""
      , status := lookupField fs "status"
      , created_at := lookupField fs "created_at"
      , completed_at := lookupField fs "completed_at"
      , result := lookupField fs "result"
      , error := lookupField fs "error"
      , progress_percent := (strToInt? ((lookupField fs "progress_percent").getD "0")).getD 0
      , estimated_completion_seconds :=
          (strToInt? ((lookupField fs "estimated_completion_seconds").getD "30")).getD 30 } := by
  unfold get_job_status redisHgetall Store.look
  simp [happ, hlive, hne]

/-- C3 counterexample: `update_job_status` applies no monotonicity guard —
after a job reaches the terminal status COMPLETED, a further
`update_job_status(..., PENDING)` call moves the stored job back to PENDING,
so a sequence of update calls is not confined to forward transitions. -/
theorem job_status_not_monotonic :
    (get_job_status
        (update_job_status
          (create_job emptyStore 0 "j1" "ocr" "https://x/a.png" "{}" 30)
          1 "j1" .completed (some 100) (some "R") none)
        2 "j1").map (fun v => v.status) = some (some "completed") ∧
    (get_job_status
        (update_job_status
          (update_job_status
            (create_job emptyStore 0 "j1" "ocr" "https://x/a.png" "{}" 30)
            1 "j1" .completed (some 100) (some "R") none)
          2 "j1" .pending none none none)
        2 "j1").map (fun v => v.status) = some (some "pending") := by
  decide

/-- C3 (amended): the status sequences actually issued for a job — PENDING
written by `create_job`, then the dispatcher's `process_job_background`
updates — only move forward along PENDING → PROCESSING → {COMPLETED,
FAILED}, reach a terminal status only as the last element, and never contain
EXPIRED (first conjunct); `create_job` stores PENDING for a fresh job id
(third conjunct); but `update_job_status` itself writes whatever status it
is passed, with no guard on the current state (second conjunct) — so
monotonicity is a property of the dispatcher's call sequence, not of the
machine. -/
theorem job_status_dispatcher_monotonic :
    (∀ (failAt : Option (Fin 4)) (result errMsg : String),
      List.Chain' (fun a b => statusRank a ≤ statusRank b)
        (JobStatus.pending ::
          (process_job_background_updates failAt result errMsg).map (fun upd => upd.status)) ∧
      JobStatus.expired ∉
        (JobStatus.pending ::
          (process_job_background_updates failAt result errMsg).map (fun upd => upd.status)) ∧
      (∀ st ∈ (JobStatus.pending ::
          (process_job_background_updates failAt result errMsg).map
            (fun upd => upd.status)).dropLast, isTerminal st = false)) ∧
    (∀ (s : Store) (now : Nat) (jid jt iu params : String) (est : Nat)
        (status : JobStatus) (p : Option Int) (r e : Option String),
      s.look now (job_key jid) = none →
      (get_job_status
          (update_job_status (create_job s now jid jt iu params est) now jid status p r e)
          now jid).map (fun v => v.status) = some (some status.value)) ∧
    (∀ (s : Store) (now : Nat) (jid jt iu params : String) (est : Nat),
      s.look now (job_key jid) = none →
      (get_job_status (create_job s now jid jt iu params est) now jid).map
          (fun v => v.status) = some (some JobStatus.pending.value)) := by
  refine ⟨?_, ?_, ?_⟩
  · intro failAt result errMsg
    cases failAt with
    | none =>
        simp only [process_job_background_updates, dispatcherFullRun, List.map]
        exact ⟨by simp [List.chain'_cons, statusRank], by decide, by decide⟩
    | some k =>
        fin_cases k <;>
          simp only [process_job_background_updates, dispatcherFullRun, Fin.isValue,
            List.take, List.map, List.append_nil, List.cons_append, List.nil_append] <;>
          exact ⟨by simp [List.chain'_cons, statusRank], by decide, by decide⟩
  · intro s now jid jt iu params est status p r e hfree
    have hlt : now < now + (est + 300) := Nat.lt_add_of_pos_right (by omega)
    have hne2 : job_key jid ≠ job_status_key jid := by
      unfold job_key job_status_key
      exact keys_ne_of_len "job:" "job:status:" jid jid (by decide) rfl
    have hcre := create_job_app_fresh s now jid jt iu params est hfree
    have hlook : Store.look (create_job s now jid jt iu params est) now (job_key jid) =
        some ⟨.hash (setFields []
          [ ("job_id", jid), ("job_type", jt), ("image_url", iu)
          , ("parameters", params), ("status", JobStatus.pending.value)
          , ("created_at", toString now)
          , ("estimated_completion_seconds", toString est)
          , ("progress_percent", "0") ]),
          some (now + (est + 300))⟩ := by
      unfold Store.look
      simp [hcre, entryLive, hlt]
    unfold update_job_status get_job_status redisHgetall redisHset
    simp only [hlook]
    cases p <;> cases r <;> cases e <;>
      simp [redisSetEx, Store.look, entryLive, hlt, hne2, setFields, lookupField]
  · intro s now jid jt iu params est hfree
    have hlt : now < now + (est + 300) := Nat.lt_add_of_pos_right (by omega)
    have hcre := create_job_app_fresh s now jid jt iu params est hfree
    rw [get_job_status_of_hash _ _ _ _ _ hcre (by simp [entryLive, hlt]) (by simp [setFields])]
    simp [setFields, lookupField]

/-- Witness for C3's amended theorem at a concrete dispatcher run and job. -/
theorem job_status_dispatcher_monotonic_witness :
    (List.Chain' (fun a b => statusRank a ≤ statusRank b)
        (JobStatus.pending ::
          (process_job_background_updates (some 2) "R" "boom").map (fun upd => upd.status)) ∧
      JobStatus.expired ∉
        (JobStatus.pending ::
          (process_job_background_updates (some 2) "R" "boom").map (fun upd => upd.status)) ∧
      (∀ st ∈ (JobStatus.pending ::
          (process_job_background_updates (some 2) "R" "boom").map
            (fun upd => upd.status)).dropLast, isTerminal st = false)) ∧
    (get_job_status
        (update_job_status (create_job emptyStore 0 "j2" "ocr" "https://x/a.png" "{}" 30)
          0 "j2" .processing (some 50) none none)
        0 "j2").map (fun v => v.status) = some (some JobStatus.processing.value) ∧
    (get_job_status (create_job emptyStore 0 "j3" "ocr" "https://x/a.png" "{}" 30) 0
        "j3").map (fun v => v.status) = some (some JobStatus.pending.value) :=
  ⟨job_status_dispatcher_monotonic.1 (some 2) "R" "boom",
   job_status_dispatcher_monotonic.2.1 emptyStore 0 "j2" "ocr" "https://x/a.png" "{}" 30
     .processing (some 50) none none (by decide),
   job_status_dispatcher_monotonic.2.2 emptyStore 0 "j3" "ocr" "https://x/a.png" "{}" 30
     (by decide)⟩

/-- C6 counterexample: a terminal update does not re-key the stored job
record's TTL — it re-keys only the `job:status:` quick-lookup key.  After
`create_job` at time 0 (TTL 330 s) and a COMPLETED update at time 5, the job
record's remaining TTL is still 325 s (not the 3600 s retention), and at
time 330 `get_job_status` already returns nothing although the status key is
still live for 3600 s. -/
theorem terminal_update_does_not_extend_record_ttl :
    redisTtl
        (update_job_status (create_job emptyStore 0 "j1" "ocr" "https://x/a.png" "{}" 30)
          5 "j1" .completed (some 100) (some "R") none)
        5 (job_key "j1") = 325 ∧
    redisTtl
        (update_job_status (create_job emptyStore 0 "j1" "ocr" "https://x/a.png" "{}" 30)
          5 "j1" .completed (some 100) (some "R") none)
        5 (job_status_key "j1") = 3600 ∧
    get_job_status
        (update_job_status (create_job emptyStore 0 "j1" "ocr" "https://x/a.png" "{}" 30)
          5 "j1" .completed (some 100) (some "R") none)
        330 "j1" = none ∧
    redisGet
        (update_job_status (create_job emptyStore 0 "j1" "ocr" "https://x/a.png" "{}" 30)
          5 "j1" .completed (some 100) (some "R") none)
        330 (job_status_key "j1") = some "completed" := by
  decide

/-- C6 (amended): a terminal update (result or error) stamps the completion
timestamp with the update time — so `completed_at ≥ created_at` whenever the
update does not precede creation — and re-keys the `job:status:` lookup key
to the fixed 3600 s retention; the job hash record that `get_job_status`
reads keeps its creation TTL (estimated duration + 300 s) unchanged, and
within that original window `get_job_status` returns the terminal status
together with the result (or error). -/
theorem terminal_update_stamps_and_rekeys_status_key
    (s : Store) (now0 now1 : Nat) (jid jt iu params : String) (est : Nat)
    (prog : Option Int) (r emsg : String)
    (hfree : s.look now0 (job_key jid) = none)
    (hle : now0 ≤ now1)
    (hlive1 : now1 < now0 + (est + 300)) :
    ((get_job_status
        (update_job_status (create_job s now0 jid jt iu params est) now1 jid .completed
          prog (some r) none)
        now1 jid).map (fun v => (v.status, v.result, v.completed_at, v.created_at)) =
      some (some JobStatus.completed.value, some r, some (toString now1),
        some (toString now0)) ∧
     redisTtl
        (update_job_status (create_job s now0 jid jt iu params est) now1 jid .completed
          prog (some r) none)
        now1 (job_key jid) = ((now0 + (est + 300) : Nat) : Int) - (now1 : Int) ∧
     redisTtl
        (update_job_status (create_job s now0 jid jt iu params est) now1 jid .completed
          prog (some r) none)
        now1 (job_status_key jid) = 3600) ∧
    ((get_job_status
        (update_job_status (create_job s now0 jid jt iu params est) now1 jid .failed
          none none (some emsg))
        now1 jid).map (fun v => (v.status, v.error, v.completed_at, v.created_at)) =
      some (some JobStatus.failed.value, some emsg, some (toString now1),
        some (toString now0)) ∧
     redisTtl
        (update_job_status (create_job s now0 jid jt iu params est) now1 jid .failed
          none none (some emsg))
        now1 (job_key jid) = ((now0 + (est + 300) : Nat) : Int) - (now1 : Int)) ∧
    now0 ≤ now1 := by
  have hne2 : job_key jid ≠ job_status_key jid := by
    unfold job_key job_status_key
    exact keys_ne_of_len "job:" "job:status:" jid jid (by decide) rfl
  have hcre := create_job_app_fresh s now0 jid jt iu params est hfree
  have hlook : Store.look (create_job s now0 jid jt iu params est) now1 (job_key jid) =
      some ⟨.hash (setFields []
        [ ("job_id", jid), ("job_type", jt), ("image_url", iu)
        , ("parameters", params), ("status", JobStatus.pending.value)
        , ("created_at", toString now0)
        , ("estimated_completion_seconds", toString est)
        , ("progress_percent", "0") ]),
        some (now0 + (est + 300))⟩ := by
    unfold Store.look
    simp [hcre, entryLive, hlive1]
  have hw : now1 < now1 + 3600 := Nat.lt_add_of_pos_right (by decide)
  refine ⟨⟨?_, ?_, ?_⟩, ⟨?_, ?_⟩, hle⟩
  · unfold update_job_status get_job_status redisHgetall redisHset
    simp only [hlook]
    cases prog <;>
      simp [redisSetEx, Store.look, entryLive, hlive1, hne2, setFields, lookupField]
  · unfold update_job_status redisTtl redisHset
    simp only [hlook]
    cases prog <;> simp [redisSetEx, Store.look, entryLive, hlive1, hne2]
  · unfold update_job_status redisTtl redisHset
    simp only [hlook]
    cases prog <;> simp [redisSetEx, Store.look, entryLive, hlive1, hne2, hw]
  · unfold update_job_status get_job_status redisHgetall redisHset
    simp only [hlook]
    simp [redisSetEx, Store.look, entryLive, hlive1, hne2, setFields, lookupField]
  · unfold update_job_status redisTtl redisHset
    simp only [hlook]
    simp [redisSetEx, Store.look, entryLive, hlive1, hne2]

/-- Witness for C6's amended theorem at a concrete job. -/
theorem terminal_update_stamps_and_rekeys_status_key_witness :
    ((get_job_status
        (update_job_status (create_job emptyStore 0 "j9" "ocr" "https://x/a.png" "{}" 30)
          5 "j9" .completed (some 100) (some "R") none)
        5 "j9").map (fun v => (v.status, v.result, v.completed_at, v.created_at)) =
      some (some JobStatus.completed.value, some "R", some (toString (5 : Nat)),
        some (toString (0 : Nat))) ∧
     redisTtl
        (update_job_status (create_job emptyStore 0 "j9" "ocr" "https://x/a.png" "{}" 30)
          5 "j9" .completed (some 100) (some "R") none)
        5 (job_key "j9") = ((0 + (30 + 300) : Nat) : Int) - ((5 : Nat) : Int) ∧
     redisTtl
        (update_job_status (create_job emptyStore 0 "j9" "ocr" "https://x/a.png" "{}" 30)
          5 "j9" .completed (some 100) (some "R") none)
        5 (job_status_key "j9") = 3600) ∧
    ((get_job_status
        (update_job_status (create_job emptyStore 0 "j9" "ocr" "https://x/a.png" "{}" 30)
          5 "j9" .failed none none (some "boom"))
        5 "j9").map (fun v => (v.status, v.error, v.completed_at, v.created_at)) =
      some (some JobStatus.failed.value, some "boom", some (toString (5 : Nat)),
        some (toString (0 : Nat))) ∧
     redisTtl
        (update_job_status (create_job emptyStore 0 "j9" "ocr" "https://x/a.png" "{}" 30)
          5 "j9" .failed none none (some "boom"))
        5 (job_key "j9") = ((0 + (30 + 300) : Nat) : Int) - ((5 : Nat) : Int)) ∧
    (0 : Nat) ≤ 5 :=
  terminal_update_stamps_and_rekeys_status_key emptyStore 0 5 "j9" "ocr"
    "https://x/a.png" "{}" 30 (some 100) "R" "boom" (by decide) (by decide) (by decide)
